import Mathlib

/-!
Verification development for the 6-ball hexagonal falling-block puzzle engine
(source: src/6ball.tsx, the primary implementation; src/unnamed/part_000 is an
earlier variant of the same component).

Shallow embedding conventions:
* board coordinates are pairs of integers (row, column), written `Pos`;
* the grid (a 2-D array of cell colors in the source) is a total function
  from positions to integer color codes, with `EMPTY = -1`;
* JavaScript `Set` objects holding cell keys become `Finset Pos`;
* the random source (`Math.random() < 0.5` tie-breaks in gravity) becomes an
  oracle `rng : Nat -> Bool` consumed at an explicit counter;
* piece coordinates (fractional in the source) are rationals, with
  `Math.round` mapped to `round` (round half up, matching JS on rationals)
  and `Math.floor` mapped to the integer floor.
-/

set_option maxRecDepth 1000000

-- ### Constants (source lines 6-24)

abbrev Pos := Int × Int

abbrev Grid := Pos → Int

def VISIBLE_ROWS : Int := 15

def HIDDEN_ROWS : Int := 5

def TOTAL_ROWS : Int := VISIBLE_ROWS + HIDDEN_ROWS

def COLS : Int := 9

def EMPTY : Int := -1

-- ### Hex geometry (source lines 56-105)

/-- Bounds check, `isValidPos` in the source. -/
def isValidPos (r c : Int) : Bool :=
  if r < 0 ∨ TOTAL_ROWS ≤ r then false
  else if c < 0 ∨ COLS ≤ c then false
  else true

/-- Row parity test `r % 2 !== 0` used throughout the source. -/
def isOddRow (r : Int) : Bool := r % 2 != 0

def oddOffsets : List Pos := [(-1, 0), (-1, 1), (0, -1), (0, 1), (1, 0), (1, 1)]

def evenOffsets : List Pos := [(-1, -1), (-1, 0), (0, -1), (0, 1), (1, -1), (1, 0)]

/-- The six parity-dependent neighbours of a cell, clipped to the board,
`getNeighbors` in the source. -/
def getNeighbors (r c : Int) : List Pos :=
  ((if isOddRow r then oddOffsets else evenOffsets).map
      (fun o => (r + o.1, c + o.2))).filter (fun p => isValidPos p.1 p.2)

/-- The two cells one row below (down-left, down-right); the source returns
them as a two-element array, embedded here as a pair. `getBottomNeighbors`. -/
def getBottomNeighbors (r c : Int) : Pos × Pos :=
  if isOddRow r then ((r + 1, c), (r + 1, c + 1))
  else ((r + 1, c - 1), (r + 1, c))

/-- The two cells one row above, as a pair. `getTopNeighbors` in the source. -/
def getTopNeighbors (r c : Int) : Pos × Pos :=
  if isOddRow r then ((r - 1, c), (r - 1, c + 1))
  else ((r - 1, c - 1), (r - 1, c))

/-- All board cells in row-major order, as iterated by the scanning loops
`for r in 0..TOTAL_ROWS, for c in 0..COLS` of the source. -/
def cellList : List Pos :=
  (List.range TOTAL_ROWS.toNat).flatMap fun (r : Nat) =>
    (List.range COLS.toNat).map fun (c : Nat) => (((r : Nat) : Int), ((c : Nat) : Int))

def cellFinset : Finset Pos := cellList.toFinset

/-- Functional update of one grid cell (an array write in the source). -/
def setCell (g : Grid) (p : Pos) (v : Int) : Grid :=
  fun q => if q = p then v else g q

-- ### Shape detection helpers (source lines 111-236)

/-- Hexagon test for a group: some board coordinate has exactly 6 valid
neighbours, all of them members of the group. The grid argument is unused,
exactly as in the source (`hasHexagonInGroup`). -/
def hasHexagonInGroup (groupSet : Finset Pos) (_grid : Grid) : Bool :=
  cellList.any fun p =>
    let neighbors := getNeighbors p.1 p.2
    neighbors.length == 6 && neighbors.all fun n => decide (n ∈ groupSet)

/-- First-occurrence deduplication used when collecting the pyramid's third
row in the source. -/
def uniquePush (acc : List Pos) (p : Pos) : List Pos :=
  if p ∈ acc then acc else acc ++ [p]

/-- Pyramid of apex `(r, c)` pointing down (`useDown = true`) or up,
`checkPyramidStructure` in the source. -/
def checkPyramidStructure (r c : Int) (groupSet : Finset Pos) (useDown : Bool) : Bool :=
  let getNext := if useDown then getBottomNeighbors else getTopNeighbors
  let row2 := getNext r c
  if decide (row2.1 ∈ groupSet) && decide (row2.2 ∈ groupSet) then
    let row3Candidates :=
      [(getNext row2.1.1 row2.1.2).1, (getNext row2.1.1 row2.1.2).2,
       (getNext row2.2.1 row2.2.2).1, (getNext row2.2.1 row2.2.2).2]
    let row3Points := row3Candidates.foldl uniquePush []
    row3Points.length == 3 && row3Points.all fun p => decide (p ∈ groupSet)
  else false

/-- `hasPyramidInGroup` in the source: some member is the apex of an upward
or downward pyramid fully inside the group (the source iterates over the
group set; embedded as a decidable existential over the finite set). -/
def hasPyramidInGroup (groupSet : Finset Pos) : Bool :=
  decide (∃ p ∈ groupSet,
    (checkPyramidStructure p.1 p.2 groupSet true ||
     checkPyramidStructure p.1 p.2 groupSet false) = true)

/-- The chain of cells obtained by iterating a one-step move, used for the
straight-line scans (the source walks `k = 1..5` updating the current cell). -/
def chainFrom (step : Pos → Pos) (p : Pos) : Nat → List Pos
  | 0 => []
  | n + 1 => step p :: chainFrom step (step p) n

/-- Consecutive-membership run length starting after `p` (the source counts
with a loop that breaks at the first non-member). -/
def runLen (groupSet : Finset Pos) (cells : List Pos) : Nat :=
  (cells.takeWhile fun q => decide (q ∈ groupSet)).length

/-- `hasStraightInGroup` in the source: from some member, 6 in a row to the
right, down-right, or down-left, all inside the group. -/
def hasStraightInGroup (groupSet : Finset Pos) : Bool :=
  decide (∃ p ∈ groupSet,
    (decide (6 ≤ 1 + runLen groupSet (chainFrom (fun q => (q.1, q.2 + 1)) p 5)) ||
     decide (6 ≤ 1 + runLen groupSet (chainFrom (fun q => (getBottomNeighbors q.1 q.2).2) p 5)) ||
     decide (6 ≤ 1 + runLen groupSet (chainFrom (fun q => (getBottomNeighbors q.1 q.2).1) p 5))) = true)

/-- The shape-priority bonus chain of `checkMatches` (source lines 393-421):
hexagon 1000, else pyramid 800, else straight 500, else 0. -/
def groupShapeBonus (grid : Grid) (groupSet : Finset Pos) : Nat :=
  if hasHexagonInGroup groupSet grid then 1000
  else if hasPyramidInGroup groupSet then 800
  else if hasStraightInGroup groupSet then 500
  else 0

-- ### Connected-component search (source lines 344-369)

/-- One enqueue-eligibility test of the BFS: the neighbour is in neither
visited set and has the sought color (source line 360). -/
def bfsFresh (grid : Grid) (color : Int) (visitedGlobal visitedLocal : Finset Pos)
    (n : Pos) : Bool :=
  decide (n ∉ visitedGlobal) && decide (n ∉ visitedLocal) && decide (grid n = color)

/-- Queue-driven BFS loop of `getConnectedGroup`: dequeue a cell, enqueue its
fresh same-colored neighbours, marking them in both visited sets and in the
group, until the queue empties. Returns the group together with the updated
global visited set (mutated in place in the source). The source's while loop
terminates because every enqueued cell is a fresh board cell; the embedding
makes this explicit with a fuel argument that, seeded with twice the number
of board cells plus one, is proved never to run out
(`getConnectedGroupAux_spec`). -/
def getConnectedGroupAux (grid : Grid) (color : Int) :
    Nat → List Pos → Finset Pos → Finset Pos → List Pos → List Pos × Finset Pos
  | _, [], _, visitedGlobal, group => (group, visitedGlobal)
  | 0, _ :: _, _, visitedGlobal, group => (group, visitedGlobal)
  | fuel + 1, curr :: rest, visitedLocal, visitedGlobal, group =>
      let ns := (getNeighbors curr.1 curr.2).filter
        (bfsFresh grid color visitedGlobal visitedLocal)
      getConnectedGroupAux grid color fuel (rest ++ ns) (visitedLocal ∪ ns.toFinset)
        (visitedGlobal ∪ ns.toFinset) (group ++ ns)

/-- `getConnectedGroup` in the source: BFS from a seed cell, of the seed's
color, seeding the queue, the local visited set, the shared global visited
set and the group with the seed. -/
def getConnectedGroup (startR startC : Int) (grid : Grid) (visitedGlobal : Finset Pos) :
    List Pos × Finset Pos :=
  let color := grid (startR, startC)
  getConnectedGroupAux grid color (2 * cellFinset.card + 1) [(startR, startC)]
    {(startR, startC)} (insert (startR, startC) visitedGlobal) [(startR, startC)]

-- ### Match detection (source lines 371-450)

/-- The mutable state of `checkMatches`: the working grid copy, the running
point total and the global visited set. -/
structure MatchState where
  nextGrid : Grid
  totalPoints : Nat
  visitedGlobal : Finset Pos

/-- One iteration of the double scanning loop of `checkMatches`: skip empty
or visited cells; otherwise take the connected group from the seed, and when
it has at least 6 members award base points plus the priority shape bonus and
clear its cells. -/
def matchCell (st : MatchState) (p : Pos) : MatchState :=
  if st.nextGrid p = EMPTY ∨ p ∈ st.visitedGlobal then st
  else
    let res := getConnectedGroup p.1 p.2 st.nextGrid st.visitedGlobal
    let group := res.1
    if 6 ≤ group.length then
      let groupSet : Finset Pos := group.toFinset
      let points := groupShapeBonus st.nextGrid groupSet
      let ballPoints := group.length * 100 + (group.length - 6) * 50
      { nextGrid := group.foldl (fun g q => setCell g q EMPTY) st.nextGrid,
        totalPoints := st.totalPoints + (ballPoints + points),
        visitedGlobal := res.2 }
    else
      { nextGrid := st.nextGrid, totalPoints := st.totalPoints, visitedGlobal := res.2 }

/-- `checkMatches` in the source: scan all cells in row-major order, and
return the cleared grid together with the total points of the pass. -/
def checkMatches (currentGrid : Grid) : Grid × Nat :=
  let final := cellList.foldl matchCell ⟨currentGrid, 0, ∅⟩
  (final.nextGrid, final.totalPoints)

-- ### Physics engine (source lines 302-339)

/-- The running state of one gravity step: working grid, whether anything has
moved, and the index of the next random tie-break to consume. -/
structure PhysState where
  grid : Grid
  moved : Bool
  k : Nat

/-- One cell of `runPhysicsStep`'s scan: a non-empty cell falls to its
down-left or down-right neighbour when that neighbour is valid and empty in
the working grid, with the random oracle breaking the tie when both are free. -/
def physicsCell (rng : Nat → Bool) (st : PhysState) (p : Pos) : PhysState :=
  let color := st.grid p
  if color = EMPTY then st
  else
    let ns := getBottomNeighbors p.1 p.2
    let dl := ns.1
    let dr := ns.2
    let canGoDL := isValidPos dl.1 dl.2 && decide (st.grid dl = EMPTY)
    let canGoDR := isValidPos dr.1 dr.2 && decide (st.grid dr = EMPTY)
    if canGoDL && canGoDR then
      if rng st.k then
        ⟨setCell (setCell st.grid dl color) p EMPTY, true, st.k + 1⟩
      else
        ⟨setCell (setCell st.grid dr color) p EMPTY, true, st.k + 1⟩
    else if canGoDL then ⟨setCell (setCell st.grid dl color) p EMPTY, true, st.k⟩
    else if canGoDR then ⟨setCell (setCell st.grid dr color) p EMPTY, true, st.k⟩
    else st

/-- The scan order of `runPhysicsStep`: rows from `TOTAL_ROWS - 2` down to 0,
columns left to right. -/
def physicsScanList : List Pos :=
  ((List.range (TOTAL_ROWS.toNat - 1)).reverse).flatMap fun (r : Nat) =>
    (List.range COLS.toNat).map fun (c : Nat) => (((r : Nat) : Int), ((c : Nat) : Int))

/-- `runPhysicsStep` in the source: one settling step over the whole board,
returning the new grid and whether any ball moved. -/
def runPhysicsStep (rng : Nat → Bool) (currentGrid : Grid) : Grid × Bool :=
  let final := physicsScanList.foldl (physicsCell rng) ⟨currentGrid, false, 0⟩
  (final.grid, final.moved)

-- ### Overflow test (source lines 552-557)

/-- `checkGameOver` in the source: some cell of the hidden top rows is
non-empty. -/
def checkGameOver (g : Grid) : Bool :=
  (List.range HIDDEN_ROWS.toNat).any fun (r : Nat) =>
    (List.range COLS.toNat).any fun (c : Nat) => decide (g (((r : Nat) : Int), ((c : Nat) : Int)) ≠ EMPTY)

-- ### Active piece (source lines 285-298 and 559-706)

/-- One ball of the falling piece: offsets from the anchor and a color. -/
structure BallRelative where
  dx : ℚ
  dy : ℚ
  color : Int
deriving DecidableEq

instance : Inhabited BallRelative := ⟨⟨0, 0, 0⟩⟩

/-- The falling piece: fractional anchor, three balls, rotation state 0 or 1. -/
structure FloatingPiece where
  x : ℚ
  y : ℚ
  balls : List BallRelative
  rotationState : Nat
deriving DecidableEq

/-- The per-ball test of `checkCollision` in the source: the ball, placed at
the candidate anchor, lands below the board, outside the columns, or on a
non-empty cell. Rows above the top are never a collision. -/
def ballCollides (grid : Grid) (px py : ℚ) (b : BallRelative) : Bool :=
  let r : Int := round (py + b.dy)
  let visualX : ℚ := px + b.dx
  let c : Int := ⌊visualX - (if isOddRow r then (1 : ℚ) / 2 else 0)⌋
  decide (TOTAL_ROWS ≤ r) || decide (c < 0) || decide (COLS ≤ c) ||
    (decide (0 ≤ r) && decide (grid (r, c) ≠ EMPTY))

/-- `checkCollision` in the source: some ball of the piece collides. -/
def checkCollision (grid : Grid) (px py : ℚ) (balls : List BallRelative) : Bool :=
  balls.any (ballCollides grid px py)

/-- `spawnPiece` in the source: anchor (3.5, 2.0), rotation state 0, balls at
the inverted-triangle offsets with the three given colors. -/
def spawnPiece (colors : List Int) : FloatingPiece :=
  { x := 7 / 2, y := 2,
    balls :=
      [⟨0, 0, colors.getD 0 0⟩,
       ⟨-(1 / 2), -1, colors.getD 1 0⟩,
       ⟨1 / 2, -1, colors.getD 2 0⟩],
    rotationState := 0 }

inductive RotDir
  | CW
  | CCW
deriving DecidableEq

def shape0 : List (ℚ × ℚ) := [(0, 0), (-(1 / 2), -1), (1 / 2, -1)]

def shape1 : List (ℚ × ℚ) := [(0, -1), (-(1 / 2), 0), (1 / 2, 0)]

/-- `rotatePiece` in the source: flip the rotation state, re-map the colors
by the fixed 60-degree permutation tables, then keep the rotation only if the
new shape fits at the anchor or after a half-cell kick left then right. -/
def rotatePiece (grid : Grid) (dir : RotDir) (prev : FloatingPiece) : FloatingPiece :=
  let nextState := if prev.rotationState = 0 then 1 else 0
  let b0 := prev.balls.getD 0 default
  let b1 := prev.balls.getD 1 default
  let b2 := prev.balls.getD 2 default
  let targetShape := if nextState = 0 then shape0 else shape1
  let cs :=
    if prev.rotationState = 0 then
      if dir = RotDir.CW then (b1.color, b0.color, b2.color)
      else (b2.color, b1.color, b0.color)
    else
      if dir = RotDir.CW then (b2.color, b1.color, b0.color)
      else (b1.color, b0.color, b2.color)
  let t0 := targetShape.getD 0 (0, 0)
  let t1 := targetShape.getD 1 (0, 0)
  let t2 := targetShape.getD 2 (0, 0)
  let newBalls : List BallRelative :=
    [⟨t0.1, t0.2, cs.1⟩, ⟨t1.1, t1.2, cs.2.1⟩, ⟨t2.1, t2.2, cs.2.2⟩]
  if checkCollision grid prev.x prev.y newBalls then
    if !checkCollision grid (prev.x - 1 / 2) prev.y newBalls then
      { prev with x := prev.x - 1 / 2, balls := newBalls, rotationState := nextState }
    else if !checkCollision grid (prev.x + 1 / 2) prev.y newBalls then
      { prev with x := prev.x + 1 / 2, balls := newBalls, rotationState := nextState }
    else prev
  else { prev with balls := newBalls, rotationState := nextState }

/-- Outcome of `movePiece`: the piece keeps floating, or it is handed to
`lockPiece` (the source then sets the active piece to null and locks). -/
inductive MoveResult
  | active (p : FloatingPiece)
  | locked (p : FloatingPiece)
deriving DecidableEq

/-- `movePiece` in the source: try the horizontal component alone (cancelled
on collision), then the vertical component at the updated x; a blocked
downward move first tries the half-cell wall kicks, and locks only when both
kicks also collide. A blocked upward/zero vertical component leaves y. -/
def movePiece (grid : Grid) (dx dy : ℚ) (prev : FloatingPiece) : MoveResult :=
  let nextX :=
    if dx ≠ 0 then
      if !checkCollision grid (prev.x + dx) prev.y prev.balls then prev.x + dx else prev.x
    else prev.x
  if dy ≠ 0 then
    let testY := prev.y + dy
    if !checkCollision grid nextX testY prev.balls then
      MoveResult.active { prev with x := nextX, y := testY }
    else if 0 < dy then
      if !checkCollision grid (nextX + 1 / 2) testY prev.balls then
        MoveResult.active { prev with x := nextX + 1 / 2, y := testY }
      else if !checkCollision grid (nextX - 1 / 2) testY prev.balls then
        MoveResult.active { prev with x := nextX - 1 / 2, y := testY }
      else MoveResult.locked { prev with x := nextX }
    else MoveResult.active { prev with x := nextX }
  else MoveResult.active { prev with x := nextX }

-- ### Game state machine (source lines 455-514)

inductive GamePhase
  | START
  | PLAYING
  | SETTLING
  | GAME_OVER
deriving DecidableEq

/-- The game state visible to the SETTLING branch of the source's `update`
loop: grid, score, phase, active piece and the pre-generated next colors. -/
structure GameState where
  grid : Grid
  score : Nat
  phase : GamePhase
  activePiece : Option FloatingPiece
  nextColors : List Int

/-- The SETTLING branch of `update` (source lines 484-512), at a tick where
the settle timer fires: run one gravity step; if nothing moved run match
detection; on points apply the clears and add the score (staying in SETTLING
for the chain); otherwise either game over on overflow or spawn the next
piece from the stored next colors. `freshColors` stands for the colors the
source's random `generateNextColors()` would produce for the preview. -/
def settleTick (rng : Nat → Bool) (freshColors : List Int) (st : GameState) : GameState :=
  let res := runPhysicsStep rng st.grid
  let newGrid := res.1
  if res.2 then { st with grid := newGrid }
  else
    let matchResult := checkMatches newGrid
    if 0 < matchResult.2 then
      { st with grid := matchResult.1, score := st.score + matchResult.2 }
    else if checkGameOver newGrid then
      { st with grid := newGrid, phase := GamePhase.GAME_OVER }
    else
      { st with
          grid := newGrid
          phase := GamePhase.PLAYING
          activePiece := some (spawnPiece st.nextColors)
          nextColors := freshColors }

-- ### Specification-side notions (used to state the claims)

/-- One same-colored adjacency step on the board. -/
def adjStep (g : Grid) (a b : Pos) : Prop :=
  b ∈ getNeighbors a.1 a.2 ∧ g b = g a

/-- Connectivity through same-colored neighbours (the spec's "connected
same-color group" reachability). -/
def Reaches (g : Grid) : Pos → Pos → Prop :=
  Relation.ReflTransGen (adjStep g)

/-- Any two members of the set are joined by a same-colored neighbour path
that stays inside the set. -/
def SameColorConnected (g : Grid) (S : Finset Pos) : Prop :=
  ∀ p ∈ S, ∀ q ∈ S,
    Relation.ReflTransGen (fun a b => b ∈ getNeighbors a.1 a.2 ∧ b ∈ S ∧ g b = g a) p q

/-- An eligible group of the spec: a nonempty set of valid, non-empty board
cells, connected through same-colored adjacency, maximal (closed under
same-colored neighbours), with at least 6 members. -/
def EligibleGroup (g : Grid) (S : Finset Pos) : Prop :=
  S.Nonempty ∧
  (∀ p ∈ S, isValidPos p.1 p.2 = true) ∧
  (∀ p ∈ S, g p ≠ EMPTY) ∧
  SameColorConnected g S ∧
  (∀ p ∈ S, ∀ q, q ∈ getNeighbors p.1 p.2 → g q = g p → q ∈ S) ∧
  6 ≤ S.card

/-- The multiset of ball colors on the board (empty cells excluded). -/
def boardBalls (g : Grid) : Multiset Int :=
  ((cellList.map g).filter (fun v => decide (v ≠ EMPTY)) : List Int)

/-- Invariant of the row-major scan of `checkMatches`, after the cells of
`processed` have been handled: the groups found so far are exactly a
duplicate-free family of connectivity components, the visited set is their
union, the points are the summed scores of the large ones, and the working
grid is the input with the large components cleared. -/
def ScanInv (g : Grid) (processed : List Pos) (st : MatchState) : Prop :=
  ∃ comps : List (List Pos),
    (∀ G, G ∈ comps → G.Nodup ∧
      ∃ s, s ∈ G ∧ isValidPos s.1 s.2 = true ∧ g s ≠ EMPTY ∧
        (∀ q, q ∈ G ↔ Reaches g s q)) ∧
    (∀ q : Pos, q ∈ st.visitedGlobal ↔ ∃ G, G ∈ comps ∧ q ∈ G) ∧
    List.Pairwise (fun G₁ G₂ => ∀ q, q ∈ G₁ → q ∉ G₂) comps ∧
    st.totalPoints =
      ((comps.filter fun G => 6 ≤ G.length).map fun G =>
        G.length * 100 + (G.length - 6) * 50 + groupShapeBonus g G.toFinset).sum ∧
    (∀ q : Pos, st.nextGrid q =
      if q ∈ (comps.filter fun G => 6 ≤ G.length).flatten then EMPTY else g q) ∧
    (∀ p, p ∈ processed → g p = EMPTY ∨ p ∈ st.visitedGlobal)

-- ### Concrete boards and states used as test inputs

/-- The all-empty board produced by `initGame`. -/
def emptyGrid : Grid := fun _ => EMPTY

/-- A hexagon ring of color 0 around the cell (2, 4), which holds color 1:
the six neighbours of (2, 4) are filled with color 0 and the center holds a
different color. -/
def ringGrid : Grid := fun p =>
  if p = (1, 3) ∨ p = (1, 4) ∨ p = (2, 3) ∨ p = (2, 5) ∨ p = (3, 3) ∨ p = (3, 4) then 0
  else if p = (2, 4) then 1 else EMPTY

/-- The same hexagon ring with the center (2, 4) holding the ring's color. -/
def ringGrid7 : Grid := fun p =>
  if p = (1, 3) ∨ p = (1, 4) ∨ p = (2, 3) ∨ p = (2, 5) ∨ p = (3, 3) ∨ p = (3, 4) ∨
      p = (2, 4) then 0
  else EMPTY

/-- A group that contains both a full hexagon ring (around (2, 4)) and a
horizontal straight of 6 (row 2, columns 0 to 5). -/
def hexStraightSet : Finset Pos :=
  {(1, 3), (1, 4), (2, 3), (2, 5), (3, 3), (3, 4), (2, 0), (2, 1), (2, 2), (2, 4)}

/-- A board holding a single ball of color 0 at (10, 4). -/
def oneBallGrid : Grid := fun p => if p = (10, 4) then 0 else EMPTY

/-- A board with a single ball resting on the bottom row. -/
def bottomBallGrid : Grid := fun p => if p = (19, 0) then 0 else EMPTY

/-- A settling-phase state over the empty board. -/
def settleStateEmpty : GameState :=
  { grid := emptyGrid, score := 0, phase := GamePhase.SETTLING,
    activePiece := none, nextColors := [0, 1, 2] }

/-- A blocked physics state: a ball at (19, 0) cannot fall below the board. -/
def blockedPhysState : PhysState := { grid := bottomBallGrid, moved := false, k := 0 }

-- ### Geometry lemmas

lemma isValidPos_iff (r c : Int) :
    isValidPos r c = true ↔ 0 ≤ r ∧ r < TOTAL_ROWS ∧ 0 ≤ c ∧ c < COLS := by
  simp only [isValidPos, TOTAL_ROWS, VISIBLE_ROWS, HIDDEN_ROWS, COLS]
  split_ifs with h1 h2
  · simp only [Bool.false_eq_true, false_iff]
    omega
  · simp only [Bool.false_eq_true, false_iff]
    omega
  · simp only [true_iff]
    omega

lemma isOddRow_iff (r : Int) : isOddRow r = true ↔ r % 2 ≠ 0 := by
  simp [isOddRow]

lemma isOddRow_false_iff (r : Int) : isOddRow r = false ↔ r % 2 = 0 := by
  simp [isOddRow]

lemma mem_cellList (p : Pos) : p ∈ cellList ↔ isValidPos p.1 p.2 = true := by
  have hT2 : TOTAL_ROWS.toNat = 20 := by decide
  have hC2 : COLS.toNat = 9 := by decide
  rw [isValidPos_iff]
  constructor
  · intro h
    simp only [cellList, List.mem_flatMap, List.mem_map, List.mem_range] at h
    obtain ⟨r, hr, c, hc, hpc⟩ := h
    rw [hT2] at hr
    rw [hC2] at hc
    subst hpc
    simp only [TOTAL_ROWS, VISIBLE_ROWS, HIDDEN_ROWS, COLS]
    omega
  · intro h
    have hx1 : ((p.1.toNat : Int)) = p.1 := by omega
    have hx2 : ((p.2.toNat : Int)) = p.2 := by omega
    simp only [cellList]
    refine List.mem_flatMap.mpr ⟨p.1.toNat, ?_, ?_⟩
    · rw [List.mem_range, hT2]
      have hT : TOTAL_ROWS = 20 := by decide
      rw [hT] at h
      omega
    · refine List.mem_map.mpr ⟨p.2.toNat, ?_, ?_⟩
      · rw [List.mem_range, hC2]
        have hC : COLS = 9 := by decide
        rw [hC] at h
        omega
      · rw [hx1, hx2]

set_option maxRecDepth 10000 in
set_option maxHeartbeats 1000000 in
lemma cellList_nodup : cellList.Nodup := by decide

lemma mem_cellFinset (p : Pos) : p ∈ cellFinset ↔ isValidPos p.1 p.2 = true := by
  rw [cellFinset, List.mem_toFinset, mem_cellList]

lemma mem_oddOffsets (x y : Int) :
    ((x, y) : Pos) ∈ oddOffsets ↔
      (x = -1 ∧ y = 0) ∨ (x = -1 ∧ y = 1) ∨ (x = 0 ∧ y = -1) ∨
      (x = 0 ∧ y = 1) ∨ (x = 1 ∧ y = 0) ∨ (x = 1 ∧ y = 1) := by
  simp [oddOffsets, Prod.ext_iff]

lemma mem_evenOffsets (x y : Int) :
    ((x, y) : Pos) ∈ evenOffsets ↔
      (x = -1 ∧ y = -1) ∨ (x = -1 ∧ y = 0) ∨ (x = 0 ∧ y = -1) ∨
      (x = 0 ∧ y = 1) ∨ (x = 1 ∧ y = -1) ∨ (x = 1 ∧ y = 0) := by
  simp [evenOffsets, Prod.ext_iff]

lemma mem_getNeighbors (r c : Int) (q : Pos) :
    q ∈ getNeighbors r c ↔
      isValidPos q.1 q.2 = true ∧
        ((isOddRow r = true ∧ (q.1 - r, q.2 - c) ∈ oddOffsets) ∨
         (isOddRow r = false ∧ (q.1 - r, q.2 - c) ∈ evenOffsets)) := by
  simp only [getNeighbors, List.mem_filter, List.mem_map]
  constructor
  · rintro ⟨⟨o, ho, hoq⟩, hv⟩
    refine ⟨hv, ?_⟩
    have h1 : q.1 - r = o.1 := by rw [← hoq]; simp
    have h2 : q.2 - c = o.2 := by rw [← hoq]; simp
    have hqo : ((q.1 - r, q.2 - c) : Pos) = o := by rw [h1, h2]
    cases hodd : isOddRow r
    · right
      refine ⟨rfl, ?_⟩
      rw [hqo]
      rw [hodd] at ho
      simpa using ho
    · left
      refine ⟨rfl, ?_⟩
      rw [hqo]
      rw [hodd] at ho
      simpa using ho
  · rintro ⟨hv, hcase⟩
    refine ⟨⟨(q.1 - r, q.2 - c), ?_, ?_⟩, hv⟩
    · rcases hcase with ⟨ho, hm⟩ | ⟨ho, hm⟩
      · rw [ho]
        simpa using hm
      · rw [ho]
        simpa using hm
    · obtain ⟨a, b⟩ := q
      simp only [Prod.ext_iff]
      constructor
      · simp
      · simp

lemma getNeighbors_valid {r c : Int} {q : Pos} (h : q ∈ getNeighbors r c) :
    isValidPos q.1 q.2 = true :=
  ((mem_getNeighbors r c q).mp h).1

lemma getNeighbors_length_le (r c : Int) : (getNeighbors r c).length ≤ 6 := by
  have h := List.length_filter_le (fun p : Pos => isValidPos p.1 p.2)
    ((if isOddRow r then oddOffsets else evenOffsets).map (fun o => (r + o.1, c + o.2)))
  rw [getNeighbors]
  refine le_trans h ?_
  rw [List.length_map]
  cases isOddRow r <;> simp [oddOffsets, evenOffsets]

lemma neg_mem_evenOffsets (x y : Int) (h : ((x, y) : Pos) ∈ oddOffsets) :
    ((-x, -y) : Pos) ∈ evenOffsets := by
  rw [mem_oddOffsets] at h
  rcases h with ⟨rfl, rfl⟩ | ⟨rfl, rfl⟩ | ⟨rfl, rfl⟩ | ⟨rfl, rfl⟩ | ⟨rfl, rfl⟩ | ⟨rfl, rfl⟩ <;>
    decide

lemma neg_mem_oddOffsets (x y : Int) (h : ((x, y) : Pos) ∈ evenOffsets) :
    ((-x, -y) : Pos) ∈ oddOffsets := by
  rw [mem_evenOffsets] at h
  rcases h with ⟨rfl, rfl⟩ | ⟨rfl, rfl⟩ | ⟨rfl, rfl⟩ | ⟨rfl, rfl⟩ | ⟨rfl, rfl⟩ | ⟨rfl, rfl⟩ <;>
    decide

lemma neg_mem_oddOffsets_row0 (x y : Int) (h : ((x, y) : Pos) ∈ oddOffsets) (h0 : x = 0) :
    ((-x, -y) : Pos) ∈ oddOffsets := by
  rw [mem_oddOffsets] at h
  rcases h with ⟨rfl, rfl⟩ | ⟨rfl, rfl⟩ | ⟨rfl, rfl⟩ | ⟨rfl, rfl⟩ | ⟨rfl, rfl⟩ | ⟨rfl, rfl⟩ <;>
    first
    | decide
    | exact absurd h0 (by decide)

lemma neg_mem_evenOffsets_row0 (x y : Int) (h : ((x, y) : Pos) ∈ evenOffsets) (h0 : x = 0) :
    ((-x, -y) : Pos) ∈ evenOffsets := by
  rw [mem_evenOffsets] at h
  rcases h with ⟨rfl, rfl⟩ | ⟨rfl, rfl⟩ | ⟨rfl, rfl⟩ | ⟨rfl, rfl⟩ | ⟨rfl, rfl⟩ | ⟨rfl, rfl⟩ <;>
    first
    | decide
    | exact absurd h0 (by decide)

lemma oddOffsets_fst (x y : Int) (h : ((x, y) : Pos) ∈ oddOffsets) :
    x = -1 ∨ x = 0 ∨ x = 1 := by
  rw [mem_oddOffsets] at h
  rcases h with ⟨rfl, rfl⟩ | ⟨rfl, rfl⟩ | ⟨rfl, rfl⟩ | ⟨rfl, rfl⟩ | ⟨rfl, rfl⟩ | ⟨rfl, rfl⟩ <;>
    simp

lemma evenOffsets_fst (x y : Int) (h : ((x, y) : Pos) ∈ evenOffsets) :
    x = -1 ∨ x = 0 ∨ x = 1 := by
  rw [mem_evenOffsets] at h
  rcases h with ⟨rfl, rfl⟩ | ⟨rfl, rfl⟩ | ⟨rfl, rfl⟩ | ⟨rfl, rfl⟩ | ⟨rfl, rfl⟩ | ⟨rfl, rfl⟩ <;>
    simp

lemma getNeighbors_symm {a b : Pos} (ha : isValidPos a.1 a.2 = true)
    (h : b ∈ getNeighbors a.1 a.2) : a ∈ getNeighbors b.1 b.2 := by
  rw [mem_getNeighbors] at h
  obtain ⟨hvb, hcase⟩ := h
  rw [mem_getNeighbors]
  refine ⟨ha, ?_⟩
  have hpx : a.1 - b.1 = -(b.1 - a.1) := by ring
  have hpy : a.2 - b.2 = -(b.2 - a.2) := by ring
  rcases hcase with ⟨ho, hm⟩ | ⟨ho, hm⟩
  · have hodd : a.1 % 2 ≠ 0 := (isOddRow_iff _).mp ho
    cases hb : isOddRow b.1
    · right
      refine ⟨rfl, ?_⟩
      rw [hpx, hpy]
      exact neg_mem_evenOffsets _ _ hm
    · left
      refine ⟨rfl, ?_⟩
      have hbo : b.1 % 2 ≠ 0 := (isOddRow_iff _).mp hb
      have h0 : b.1 - a.1 = 0 := by
        rcases oddOffsets_fst _ _ hm with h1 | h1 | h1 <;> omega
      rw [hpx, hpy]
      exact neg_mem_oddOffsets_row0 _ _ hm h0
  · have heven : a.1 % 2 = 0 := (isOddRow_false_iff _).mp ho
    cases hb : isOddRow b.1
    · right
      refine ⟨rfl, ?_⟩
      have hbe : b.1 % 2 = 0 := (isOddRow_false_iff _).mp hb
      have h0 : b.1 - a.1 = 0 := by
        rcases evenOffsets_fst _ _ hm with h1 | h1 | h1 <;> omega
      rw [hpx, hpy]
      exact neg_mem_evenOffsets_row0 _ _ hm h0
    · left
      refine ⟨rfl, ?_⟩
      rw [hpx, hpy]
      exact neg_mem_oddOffsets _ _ hm

lemma getNeighbors_nodup (r c : Int) : (getNeighbors r c).Nodup := by
  have hmap : ((if isOddRow r then oddOffsets else evenOffsets).map
      (fun o => (r + o.1, c + o.2))).Nodup := by
    apply List.Nodup.map
    · intro x y hxy
      simp only [Prod.mk.injEq] at hxy
      obtain ⟨x1, x2⟩ := x
      obtain ⟨y1, y2⟩ := y
      simp only at hxy
      simp only [Prod.mk.injEq]
      omega
    · cases isOddRow r
      · decide
      · decide
  exact hmap.filter _

-- ### Claim C7

/-- C7: for every coordinate, `getNeighbors` returns at most 6 coordinates,
each within the board bounds, and for in-bounds cells the neighbour relation
is symmetric. -/
theorem claim7_neighbors :
    (∀ r c : Int, (getNeighbors r c).length ≤ 6 ∧
      ∀ p ∈ getNeighbors r c, isValidPos p.1 p.2 = true) ∧
    (∀ a b : Pos, isValidPos a.1 a.2 = true → isValidPos b.1 b.2 = true →
      (b ∈ getNeighbors a.1 a.2 ↔ a ∈ getNeighbors b.1 b.2)) := by
  constructor
  · intro r c
    exact ⟨getNeighbors_length_le r c, fun p hp => getNeighbors_valid hp⟩
  · intro a b ha hb
    exact ⟨fun h => getNeighbors_symm ha h, fun h => getNeighbors_symm hb h⟩

/-- Witness for C7 at the concrete cells (2, 4) and (1, 3). -/
theorem claim7_neighbors_witness :
    isValidPos 2 4 = true ∧ isValidPos 1 3 = true ∧
      (((1, 3) : Pos) ∈ getNeighbors 2 4 ↔ ((2, 4) : Pos) ∈ getNeighbors 1 3) :=
  ⟨by decide, by decide, claim7_neighbors.2 (2, 4) (1, 3) (by decide) (by decide)⟩

-- ### Reachability lemmas

lemma reaches_color {g : Grid} {p q : Pos} (h : Reaches g p q) : g q = g p := by
  induction h with
  | refl => rfl
  | tail _ hstep ih => rw [hstep.2, ih]

lemma reaches_valid {g : Grid} {p q : Pos} (hp : isValidPos p.1 p.2 = true)
    (h : Reaches g p q) : isValidPos q.1 q.2 = true := by
  induction h with
  | refl => exact hp
  | tail _ hstep _ => exact getNeighbors_valid hstep.1

lemma reaches_symm {g : Grid} {p q : Pos} (hp : isValidPos p.1 p.2 = true)
    (h : Reaches g p q) : Reaches g q p := by
  induction h with
  | refl => exact Relation.ReflTransGen.refl
  | tail hab hstep ih =>
      have hvb := reaches_valid hp hab
      exact Relation.ReflTransGen.head ⟨getNeighbors_symm hvb hstep.1, hstep.2.symm⟩ ih

lemma component_eq {g : Grid} {s₁ s₂ : Pos} (h1 : isValidPos s₁.1 s₁.2 = true)
    (h : Reaches g s₁ s₂) : ∀ x, (Reaches g s₁ x ↔ Reaches g s₂ x) :=
  fun _ => ⟨fun hx => Relation.ReflTransGen.trans (reaches_symm h1 h) hx,
    fun hx => Relation.ReflTransGen.trans h hx⟩

lemma reaches_within {g : Grid} {S : Finset Pos} {s : Pos}
    (hS : ∀ x, Reaches g s x → x ∈ S) {q : Pos} (h : Reaches g s q) :
    Relation.ReflTransGen (fun a b => b ∈ getNeighbors a.1 a.2 ∧ b ∈ S ∧ g b = g a) s q := by
  induction h with
  | refl => exact Relation.ReflTransGen.refl
  | tail hab hstep ih =>
      exact Relation.ReflTransGen.tail ih
        ⟨hstep.1, hS _ (Relation.ReflTransGen.tail hab hstep), hstep.2⟩

lemma within_mem {g : Grid} {S : Finset Pos} {p q : Pos} (hp : p ∈ S)
    (h : Relation.ReflTransGen
      (fun a b => b ∈ getNeighbors a.1 a.2 ∧ b ∈ S ∧ g b = g a) p q) : q ∈ S := by
  induction h with
  | refl => exact hp
  | tail _ hstep _ => exact hstep.2.1

lemma within_symm {g : Grid} {S : Finset Pos}
    (hval : ∀ x ∈ S, isValidPos x.1 x.2 = true) {p q : Pos} (hp : p ∈ S)
    (h : Relation.ReflTransGen
      (fun a b => b ∈ getNeighbors a.1 a.2 ∧ b ∈ S ∧ g b = g a) p q) :
    Relation.ReflTransGen (fun a b => b ∈ getNeighbors a.1 a.2 ∧ b ∈ S ∧ g b = g a) q p := by
  induction h with
  | refl => exact Relation.ReflTransGen.refl
  | tail hab hstep ih =>
      have hbS := within_mem hp hab
      exact Relation.ReflTransGen.head
        ⟨getNeighbors_symm (hval _ hbS) hstep.1, hbS, hstep.2.2.symm⟩ ih

lemma within_imp_reaches {g : Grid} {S : Finset Pos} {p q : Pos}
    (h : Relation.ReflTransGen
      (fun a b => b ∈ getNeighbors a.1 a.2 ∧ b ∈ S ∧ g b = g a) p q) :
    Reaches g p q := by
  induction h with
  | refl => exact Relation.ReflTransGen.refl
  | tail _ hstep ih => exact Relation.ReflTransGen.tail ih ⟨hstep.1, hstep.2.2⟩

/-- Members of an eligible group are exactly the cells reachable from any of
its members. -/
lemma eligibleGroup_mem_iff {g : Grid} {S : Finset Pos} (hS : EligibleGroup g S)
    {p : Pos} (hp : p ∈ S) : ∀ q, (q ∈ S ↔ Reaches g p q) := by
  intro q
  constructor
  · intro hq
    exact within_imp_reaches (hS.2.2.2.1 p hp q hq)
  · intro hq
    induction hq with
    | refl => exact hp
    | tail hab hstep ih => exact hS.2.2.2.2.1 _ ih _ hstep.1 hstep.2

-- ### BFS lemmas

lemma bfs_ns_card (g : Grid) (color : Int) (vG vL : Finset Pos) (r c : Int) :
    (cellFinset \ (vL ∪ ((getNeighbors r c).filter (bfsFresh g color vG vL)).toFinset)).card +
      ((getNeighbors r c).filter (bfsFresh g color vG vL)).length =
      (cellFinset \ vL).card := by
  set l := (getNeighbors r c).filter (bfsFresh g color vG vL) with hl
  have hnodup : l.Nodup := (getNeighbors_nodup r c).filter _
  have hsub : l.toFinset ⊆ cellFinset \ vL := by
    intro x hx
    rw [List.mem_toFinset, hl, List.mem_filter] at hx
    obtain ⟨h1, h2⟩ := hx
    simp only [bfsFresh, Bool.and_eq_true, decide_eq_true_eq] at h2
    rw [Finset.mem_sdiff]
    exact ⟨(mem_cellFinset x).mpr (getNeighbors_valid h1), h2.1.2⟩
  have hsplit : cellFinset \ (vL ∪ l.toFinset) = (cellFinset \ vL) \ l.toFinset := by
    ext x
    simp only [Finset.mem_sdiff, Finset.mem_union]
    constructor
    · rintro ⟨h1, h2⟩
      exact ⟨⟨h1, fun h => h2 (Or.inl h)⟩, fun h => h2 (Or.inr h)⟩
    · rintro ⟨⟨h1, h2⟩, h3⟩
      refine ⟨h1, ?_⟩
      rintro (h | h)
      · exact h2 h
      · exact h3 h
  rw [hsplit, Finset.card_sdiff hsub, List.toFinset_card_of_nodup hnodup]
  have hle : l.length ≤ (cellFinset \ vL).card := by
    rw [← List.toFinset_card_of_nodup hnodup]
    exact Finset.card_le_card hsub
  omega

lemma getConnectedGroupAux_congr {g₁ g₂ : Grid} {color : Int} :
    ∀ (fuel : Nat) (queue : List Pos) (vL vG : Finset Pos) (group : List Pos),
      (∀ q, q ∉ vG → g₁ q = g₂ q) →
      getConnectedGroupAux g₁ color fuel queue vL vG group =
        getConnectedGroupAux g₂ color fuel queue vL vG group := by
  intro fuel
  induction fuel with
  | zero =>
      intro queue vL vG group _
      cases queue with
      | nil => rfl
      | cons curr rest => rfl
  | succ fuel ih =>
      intro queue vL vG group hg
      cases queue with
      | nil => rfl
      | cons curr rest =>
          have hns : (getNeighbors curr.1 curr.2).filter (bfsFresh g₁ color vG vL) =
              (getNeighbors curr.1 curr.2).filter (bfsFresh g₂ color vG vL) := by
            apply List.filter_congr
            intro n _
            by_cases hnvG : n ∈ vG
            · simp [bfsFresh, hnvG]
            · simp [bfsFresh, hnvG, hg n hnvG]
          show getConnectedGroupAux g₁ color fuel _ _ _ _ =
            getConnectedGroupAux g₂ color fuel _ _ _ _
          rw [← hns]
          exact ih _ _ _ _ fun q hq => hg q fun hin => hq (Finset.mem_union_left _ hin)

lemma getConnectedGroupAux_spec {g : Grid} {color : Int} {vG₀ : Finset Pos} {start : Pos} :
    ∀ (fuel : Nat) (queue : List Pos) (vL vG : Finset Pos) (group : List Pos),
      2 * (cellFinset \ vL).card + queue.length ≤ fuel →
      (∀ q ∈ queue, q ∈ group) →
      group.Nodup →
      (∀ q, q ∈ group ↔ q ∈ vL) →
      (∀ q, q ∈ vG ↔ q ∈ vG₀ ∨ q ∈ vL) →
      (∀ q ∈ vL, q ∉ vG₀) →
      start ∈ vL →
      (∀ q ∈ vL, Relation.ReflTransGen (fun a b => adjStep g a b ∧ b ∉ vG₀) start q) →
      (∀ q ∈ vL, g q = color) →
      (∀ a, a ∈ vL → a ∉ queue →
        ∀ b, b ∈ getNeighbors a.1 a.2 → g b = color → b ∉ vG₀ → b ∈ vL) →
      ∀ grp vGout, getConnectedGroupAux g color fuel queue vL vG group = (grp, vGout) →
        grp.Nodup ∧
        (∀ q, q ∈ vGout ↔ q ∈ vG₀ ∨ q ∈ grp) ∧
        start ∈ grp ∧
        (∀ q ∈ grp, Relation.ReflTransGen (fun a b => adjStep g a b ∧ b ∉ vG₀) start q) ∧
        (∀ q ∈ grp, g q = color) ∧
        (∀ q ∈ grp, q ∉ vG₀) ∧
        (∀ a, a ∈ grp →
          ∀ b, b ∈ getNeighbors a.1 a.2 → g b = color → b ∉ vG₀ → b ∈ grp) := by
  intro fuel
  induction fuel with
  | zero =>
      intro queue vL vG group hfuel hq hnod hgl hvg hnin hst hsound hcol hclosed grp vGout heq
      cases queue with
      | cons curr rest =>
          rw [List.length_cons] at hfuel
          omega
      | nil =>
          obtain ⟨rfl, rfl⟩ := Prod.mk.injEq _ _ _ _ |>.mp heq
          refine ⟨hnod, ?_, (hgl start).mpr hst, ?_, ?_, ?_, ?_⟩
          · intro q
            rw [hvg, hgl]
          · intro q hqm
            exact hsound q ((hgl q).mp hqm)
          · intro q hqm
            exact hcol q ((hgl q).mp hqm)
          · intro q hqm
            exact hnin q ((hgl q).mp hqm)
          · intro a ha b hb hcolb hbnin
            exact (hgl b).mpr (hclosed a ((hgl a).mp ha) (List.not_mem_nil a) b hb hcolb hbnin)
  | succ fuel ih =>
      intro queue vL vG group hfuel hq hnod hgl hvg hnin hst hsound hcol hclosed grp vGout heq
      cases queue with
      | nil =>
          obtain ⟨rfl, rfl⟩ := Prod.mk.injEq _ _ _ _ |>.mp heq
          refine ⟨hnod, ?_, (hgl start).mpr hst, ?_, ?_, ?_, ?_⟩
          · intro q
            rw [hvg, hgl]
          · intro q hqm
            exact hsound q ((hgl q).mp hqm)
          · intro q hqm
            exact hcol q ((hgl q).mp hqm)
          · intro q hqm
            exact hnin q ((hgl q).mp hqm)
          · intro a ha b hb hcolb hbnin
            exact (hgl b).mpr (hclosed a ((hgl a).mp ha) (List.not_mem_nil a) b hb hcolb hbnin)
      | cons curr rest =>
          set ns := (getNeighbors curr.1 curr.2).filter (bfsFresh g color vG vL) with hnsdef
          have hnsnodup : ns.Nodup := (getNeighbors_nodup curr.1 curr.2).filter _
          have hnsmem : ∀ n, n ∈ ns →
              n ∈ getNeighbors curr.1 curr.2 ∧ n ∉ vG ∧ n ∉ vL ∧ g n = color := by
            intro n hn
            rw [hnsdef, List.mem_filter] at hn
            obtain ⟨h1, h2⟩ := hn
            simp only [bfsFresh, Bool.and_eq_true, decide_eq_true_eq] at h2
            exact ⟨h1, h2.1.1, h2.1.2, h2.2⟩
          have hcurr : curr ∈ vL := (hgl curr).mp (hq curr (List.mem_cons_self curr rest))
          have hcard := bfs_ns_card g color vG vL curr.1 curr.2
          rw [← hnsdef] at hcard
          refine ih (rest ++ ns) (vL ∪ ns.toFinset) (vG ∪ ns.toFinset) (group ++ ns)
            ?_ ?_ ?_ ?_ ?_ ?_ ?_ ?_ ?_ ?_ grp vGout ?_
          · rw [List.length_append]
            rw [List.length_cons] at hfuel
            omega
          · intro x hx
            rw [List.mem_append] at hx
            rw [List.mem_append]
            rcases hx with hx | hx
            · exact Or.inl (hq x (List.mem_cons_of_mem curr hx))
            · exact Or.inr hx
          · rw [List.nodup_append]
            refine ⟨hnod, hnsnodup, ?_⟩
            intro a hag han
            exact (hnsmem a han).2.2.1 ((hgl a).mp hag)
          · intro x
            rw [List.mem_append, Finset.mem_union, List.mem_toFinset, hgl]
          · intro x
            rw [Finset.mem_union, List.mem_toFinset, hvg, Finset.mem_union, List.mem_toFinset,
              or_assoc]
          · intro x hx
            rw [Finset.mem_union, List.mem_toFinset] at hx
            rcases hx with hx | hx
            · exact hnin x hx
            · intro hx0
              exact (hnsmem x hx).2.1 ((hvg x).mpr (Or.inl hx0))
          · exact Finset.mem_union_left _ hst
          · intro x hx
            rw [Finset.mem_union, List.mem_toFinset] at hx
            rcases hx with hx | hx
            · exact hsound x hx
            · obtain ⟨hnb, hnvG, hnvL, hncol⟩ := hnsmem x hx
              refine Relation.ReflTransGen.tail (hsound curr hcurr) ?_
              refine ⟨⟨hnb, ?_⟩, ?_⟩
              · rw [hncol, hcol curr hcurr]
              · intro hx0
                exact hnvG ((hvg x).mpr (Or.inl hx0))
          · intro x hx
            rw [Finset.mem_union, List.mem_toFinset] at hx
            rcases hx with hx | hx
            · exact hcol x hx
            · exact (hnsmem x hx).2.2.2
          · intro a ha hanot b hb hcolb hbnin
            rw [Finset.mem_union, List.mem_toFinset] at ha
            rw [Finset.mem_union, List.mem_toFinset]
            rcases ha with ha | ha
            · by_cases hac : a = curr
              · subst hac
                by_cases hbvL : b ∈ vL
                · exact Or.inl hbvL
                · right
                  rw [hnsdef, List.mem_filter]
                  refine ⟨hb, ?_⟩
                  simp only [bfsFresh, Bool.and_eq_true, decide_eq_true_eq]
                  refine ⟨⟨?_, hbvL⟩, hcolb⟩
                  intro hbvG
                  rcases (hvg b).mp hbvG with h | h
                  · exact hbnin h
                  · exact hbvL h
              · have hanotq : a ∉ curr :: rest := by
                  intro hmem
                  rcases List.mem_cons.mp hmem with h | h
                  · exact hac h
                  · exact hanot (List.mem_append.mpr (Or.inl h))
                exact Or.inl (hclosed a ha hanotq b hb hcolb hbnin)
            · exact absurd (List.mem_append.mpr (Or.inr ha)) hanot
          · exact heq

lemma groupShapeBonus_congr (g₁ g₂ : Grid) (s : Finset Pos) :
    groupShapeBonus g₁ s = groupShapeBonus g₂ s := rfl

lemma getConnectedGroup_char {g : Grid} {vG₀ : Finset Pos} {p : Pos}
    (hp : p ∉ vG₀) (hdisj : ∀ q, Reaches g p q → q ∉ vG₀) :
    ∀ grp vGout, getConnectedGroup p.1 p.2 g vG₀ = (grp, vGout) →
      grp.Nodup ∧ (∀ q, q ∈ vGout ↔ q ∈ vG₀ ∨ q ∈ grp) ∧
      (∀ q, q ∈ grp ↔ Reaches g p q) := by
  intro grp vGout heq
  simp only [getConnectedGroup] at heq
  have hfuel : 2 * (cellFinset \ {p}).card + ([p] : List Pos).length ≤
      2 * cellFinset.card + 1 := by
    have hle : (cellFinset \ {p}).card ≤ cellFinset.card :=
      Finset.card_le_card (Finset.sdiff_subset)
    simp only [List.length_singleton]
    omega
  have hspec := @getConnectedGroupAux_spec g (g p) vG₀ p
    (2 * cellFinset.card + 1) [p] {p} (insert p vG₀) [p]
    hfuel
    (fun q hqm => hqm)
    (List.nodup_singleton p)
    (by intro q; simp)
    (by
      intro q
      simp only [Finset.mem_insert, Finset.mem_singleton]
      constructor
      · intro h
        rcases h with h | h
        · exact Or.inr h
        · exact Or.inl h
      · intro h
        rcases h with h | h
        · exact Or.inr h
        · exact Or.inl h)
    (by
      intro q hq
      rw [Finset.mem_singleton] at hq
      subst hq
      exact hp)
    (Finset.mem_singleton_self p)
    (by
      intro q hq
      rw [Finset.mem_singleton] at hq
      subst hq
      exact Relation.ReflTransGen.refl)
    (by
      intro q hq
      rw [Finset.mem_singleton] at hq
      subst hq
      rfl)
    (by
      intro a ha hanot
      exact absurd (by
        rw [Finset.mem_singleton] at ha
        rw [ha]
        exact List.mem_singleton_self p) hanot)
    grp vGout heq
  obtain ⟨hnodup, hvgout, hstart, hsound, hcol, hnin, hclosed⟩ := hspec
  refine ⟨hnodup, hvgout, ?_⟩
  intro q
  constructor
  · intro hq
    exact Relation.ReflTransGen.mono (fun a b hab => hab.1) (hsound q hq)
  · intro hq
    induction hq with
    | refl => exact hstart
    | tail hab hstep ih =>
        refine hclosed _ ih _ hstep.1 ?_ (hdisj _ (Relation.ReflTransGen.tail hab hstep))
        rw [hstep.2]
        exact hcol _ ih

lemma foldl_setCell_empty (G : List Pos) (g : Grid) (x : Pos) :
    (G.foldl (fun acc q => setCell acc q EMPTY) g) x = if x ∈ G then EMPTY else g x := by
  induction G generalizing g with
  | nil => simp
  | cons a G ih =>
      rw [List.foldl_cons, ih]
      by_cases hx : x ∈ G
      · simp [hx]
      · by_cases hxa : x = a
        · simp [hx, hxa, setCell]
        · simp [hx, hxa, setCell]

set_option maxRecDepth 40000 in
lemma scanInv_matchCell {g : Grid} {processed : List Pos} {st : MatchState} {p : Pos}
    (hp : isValidPos p.1 p.2 = true) (hinv : ScanInv g processed st) :
    ScanInv g (processed ++ [p]) (matchCell st p) := by
  obtain ⟨comps, hcomps, hvg, hdisj, hpts, hgrid, hcov⟩ := hinv
  by_cases hskip : st.nextGrid p = EMPTY ∨ p ∈ st.visitedGlobal
  · rw [matchCell, if_pos hskip]
    refine ⟨comps, hcomps, hvg, hdisj, hpts, hgrid, ?_⟩
    intro x hx
    rw [List.mem_append] at hx
    rcases hx with hx | hx
    · exact hcov x hx
    · rw [List.mem_singleton] at hx
      subst hx
      rcases hskip with hs | hs
      · by_cases hbig : x ∈ (comps.filter fun G => 6 ≤ G.length).flatten
        · right
          rw [hvg]
          obtain ⟨G, hG, hpG⟩ := List.mem_flatten.mp hbig
          exact ⟨G, (List.mem_filter.mp hG).1, hpG⟩
        · left
          have hgx := hgrid x
          rw [if_neg hbig] at hgx
          rw [← hgx]
          exact hs
      · right
        exact hs
  · have hskip0 := hskip
    push_neg at hskip0
    obtain ⟨hne, hnvg⟩ := hskip0
    have hagree : ∀ q, q ∉ st.visitedGlobal → st.nextGrid q = g q := by
      intro q hq
      have hgq := hgrid q
      rw [if_neg ?_] at hgq
      · exact hgq
      · intro hqbig
        obtain ⟨G, hG, hqG⟩ := List.mem_flatten.mp hqbig
        exact hq ((hvg q).mpr ⟨G, (List.mem_filter.mp hG).1, hqG⟩)
    have hgp : st.nextGrid p = g p := hagree p hnvg
    have hgpne : g p ≠ EMPTY := by
      rw [← hgp]
      exact hne
    have hdisjcomp : ∀ q, Reaches g p q → q ∉ st.visitedGlobal := by
      intro q hq hqvg
      obtain ⟨G, hGc, hqG⟩ := (hvg q).mp hqvg
      obtain ⟨hGnodup, s, hsG, hsval, hsne, hGiff⟩ := hcomps G hGc
      have hsq : Reaches g s q := (hGiff q).mp hqG
      have hqp : Reaches g q p := reaches_symm hp hq
      have hsp : Reaches g s p := Relation.ReflTransGen.trans hsq hqp
      exact hnvg ((hvg p).mpr ⟨G, hGc, (hGiff p).mpr hsp⟩)
    rcases hgc : getConnectedGroup p.1 p.2 g st.visitedGlobal with ⟨grp, vGout⟩
    have hcongr : getConnectedGroup p.1 p.2 st.nextGrid st.visitedGlobal =
        getConnectedGroup p.1 p.2 g st.visitedGlobal := by
      simp only [getConnectedGroup]
      have hgp' : st.nextGrid (p.1, p.2) = g (p.1, p.2) := hgp
      rw [hgp']
      apply getConnectedGroupAux_congr
      intro q hq
      exact hagree q fun hqm => hq (Finset.mem_insert_of_mem hqm)
    have hres : getConnectedGroup p.1 p.2 st.nextGrid st.visitedGlobal = (grp, vGout) := by
      rw [hcongr, hgc]
    obtain ⟨hgnodup, hvgout, hmemiff⟩ := getConnectedGroup_char hnvg hdisjcomp grp vGout hgc
    have hpgrp : p ∈ grp := (hmemiff p).mpr Relation.ReflTransGen.refl
    have hmatch : matchCell st p =
        if 6 ≤ grp.length then
          { nextGrid := grp.foldl (fun gg q => setCell gg q EMPTY) st.nextGrid,
            totalPoints := st.totalPoints +
              ((grp.length * 100 + (grp.length - 6) * 50) +
                groupShapeBonus st.nextGrid grp.toFinset),
            visitedGlobal := vGout }
        else { nextGrid := st.nextGrid, totalPoints := st.totalPoints,
               visitedGlobal := vGout } := by
      rw [matchCell, if_neg hskip, hres]
    have hcompprops : ∀ G, G ∈ comps ++ [grp] → G.Nodup ∧
        ∃ s, s ∈ G ∧ isValidPos s.1 s.2 = true ∧ g s ≠ EMPTY ∧
          (∀ q, q ∈ G ↔ Reaches g s q) := by
      intro G hG
      rw [List.mem_append, List.mem_singleton] at hG
      rcases hG with hG | hG
      · exact hcomps G hG
      · subst hG
        exact ⟨hgnodup, p, hpgrp, hp, hgpne, hmemiff⟩
    have hvg' : ∀ q : Pos, q ∈ vGout ↔ ∃ G, G ∈ comps ++ [grp] ∧ q ∈ G := by
      intro q
      rw [hvgout, hvg]
      constructor
      · intro h
        rcases h with ⟨G, hGc, hqG⟩ | h
        · exact ⟨G, List.mem_append.mpr (Or.inl hGc), hqG⟩
        · exact ⟨grp, List.mem_append.mpr (Or.inr (List.mem_singleton_self grp)), h⟩
      · rintro ⟨G, hGc, hqG⟩
        rw [List.mem_append, List.mem_singleton] at hGc
        rcases hGc with hGc | hGc
        · exact Or.inl ⟨G, hGc, hqG⟩
        · subst hGc
          exact Or.inr hqG
    have hdisj' : List.Pairwise (fun G₁ G₂ => ∀ q, q ∈ G₁ → q ∉ G₂) (comps ++ [grp]) := by
      rw [List.pairwise_append]
      refine ⟨hdisj, List.pairwise_singleton _ _, ?_⟩
      intro G hGc G' hG' q hqG hqG'
      rw [List.mem_singleton] at hG'
      subst hG'
      exact hdisjcomp q ((hmemiff q).mp hqG') ((hvg q).mpr ⟨G, hGc, hqG⟩)
    have hfilter : (comps ++ [grp]).filter (fun G => 6 ≤ G.length) =
        comps.filter (fun G => 6 ≤ G.length) ++
          (if 6 ≤ grp.length then [grp] else []) := by
      rw [List.filter_append]
      congr 1
      by_cases hlen : 6 ≤ grp.length
      · simp [hlen]
      · simp [hlen]
    refine ⟨comps ++ [grp], hcompprops, ?_, hdisj', ?_, ?_, ?_⟩
    · intro q
      rw [hmatch]
      by_cases hlen : 6 ≤ grp.length
      · rw [if_pos hlen]
        exact hvg' q
      · rw [if_neg hlen]
        exact hvg' q
    · rw [hmatch]
      by_cases hlen : 6 ≤ grp.length
      · rw [if_pos hlen]
        simp only
        rw [hfilter, if_pos hlen, List.map_append, List.sum_append, hpts]
        simp [groupShapeBonus_congr st.nextGrid g]
      · rw [if_neg hlen]
        simp only
        rw [hfilter, if_neg hlen, List.append_nil, hpts]
    · intro q
      rw [hmatch]
      by_cases hlen : 6 ≤ grp.length
      · rw [if_pos hlen]
        simp only
        rw [foldl_setCell_empty, hfilter, if_pos hlen, List.flatten_append]
        by_cases hq : q ∈ grp
        · rw [if_pos hq, if_pos ?_]
          rw [List.mem_append]
          right
          simp [hq]
        · rw [if_neg hq, hgrid q]
          by_cases hqbig : q ∈ (comps.filter fun G => 6 ≤ G.length).flatten
          · rw [if_pos hqbig, if_pos ?_]
            rw [List.mem_append]
            exact Or.inl hqbig
          · rw [if_neg hqbig, if_neg ?_]
            rw [List.mem_append]
            rintro (h | h)
            · exact hqbig h
            · simp only [List.flatten, List.append_nil] at h
              exact hq (by simpa using h)
      · rw [if_neg hlen]
        simp only
        rw [hfilter, if_neg hlen, List.append_nil, hgrid q]
    · intro x hx
      rw [List.mem_append] at hx
      have hvgmono : ∀ y : Pos, y ∈ st.visitedGlobal → y ∈ (matchCell st p).visitedGlobal := by
        intro y hy
        rw [hmatch]
        by_cases hlen : 6 ≤ grp.length
        · rw [if_pos hlen]
          exact (hvgout y).mpr (Or.inl hy)
        · rw [if_neg hlen]
          exact (hvgout y).mpr (Or.inl hy)
      rcases hx with hx | hx
      · rcases hcov x hx with h | h
        · exact Or.inl h
        · exact Or.inr (hvgmono x h)
      · rw [List.mem_singleton] at hx
        subst hx
        right
        rw [hmatch]
        by_cases hlen : 6 ≤ grp.length
        · rw [if_pos hlen]
          exact (hvgout x).mpr (Or.inr hpgrp)
        · rw [if_neg hlen]
          exact (hvgout x).mpr (Or.inr hpgrp)

lemma scanInv_foldl {g : Grid} : ∀ (L : List Pos) (processed : List Pos) (st : MatchState),
    (∀ p ∈ L, isValidPos p.1 p.2 = true) → ScanInv g processed st →
    ScanInv g (processed ++ L) (L.foldl matchCell st) := by
  intro L
  induction L with
  | nil =>
      intro processed st _ h
      simpa using h
  | cons a L ih =>
      intro processed st hval h
      rw [List.foldl_cons]
      have h1 := scanInv_matchCell (hval a (List.mem_cons_self a L)) h
      have h2 := ih (processed ++ [a]) (matchCell st a)
        (fun p hp => hval p (List.mem_cons_of_mem a hp)) h1
      rw [List.append_assoc] at h2
      simpa using h2

lemma checkMatches_scanInv (g : Grid) :
    ScanInv g cellList (cellList.foldl matchCell ⟨g, 0, ∅⟩) := by
  have hbase : ScanInv g [] ⟨g, 0, ∅⟩ := by
    refine ⟨[], ?_, ?_, List.Pairwise.nil, ?_, ?_, ?_⟩
    · intro G hG
      exact absurd hG (List.not_mem_nil G)
    · intro q
      simp
    · simp
    · intro q
      simp
    · intro p hp
      exact absurd hp (List.not_mem_nil p)
  have h := scanInv_foldl cellList [] ⟨g, 0, ∅⟩ (fun p hp => (mem_cellList p).mp hp) hbase
  simpa using h

set_option maxRecDepth 40000 in
/-- Master characterization of `checkMatches`: the cleared groups are exactly
the eligible groups of the input grid, the returned points are the summed
per-group scores, cells of eligible groups are cleared, all other cells keep
their color. -/
lemma checkMatches_char (g : Grid) :
    ∃ gs : List (Finset Pos),
      gs.Nodup ∧
      (∀ S, S ∈ gs ↔ EligibleGroup g S) ∧
      (checkMatches g).2 = (gs.map fun S =>
        S.card * 100 + (S.card - 6) * 50 + groupShapeBonus g S).sum ∧
      (∀ S q, S ∈ gs → q ∈ S → (checkMatches g).1 q = EMPTY) ∧
      (∀ q, (∀ S, S ∈ gs → q ∉ S) → (checkMatches g).1 q = g q) := by
  obtain ⟨comps, hcomps, hvg, hdisj, hpts, hgrid, hcov⟩ := checkMatches_scanInv g
  have hne : ∀ G, G ∈ comps → ∃ x, x ∈ G := by
    intro G hG
    obtain ⟨_, s, hs, _⟩ := hcomps G hG
    exact ⟨s, hs⟩
  have hbig_sub : (comps.filter fun G => 6 ≤ G.length).Sublist comps := List.filter_sublist _
  refine ⟨(comps.filter fun G => 6 ≤ G.length).map List.toFinset, ?_, ?_, ?_, ?_, ?_⟩
  · have hpair : List.Pairwise (fun G₁ G₂ => ∀ q, q ∈ G₁ → q ∉ G₂)
        (comps.filter fun G => 6 ≤ G.length) := List.Pairwise.sublist hbig_sub hdisj
    have hpair2 : List.Pairwise (fun G₁ G₂ => G₁.toFinset ≠ G₂.toFinset)
        (comps.filter fun G => 6 ≤ G.length) := by
      refine List.Pairwise.imp_of_mem ?_ hpair
      intro G₁ G₂ h1 h2 hd heq
      obtain ⟨x, hx⟩ := hne G₁ (hbig_sub.mem h1)
      have hx2 : x ∈ G₂.toFinset := by
        rw [← heq]
        exact List.mem_toFinset.mpr hx
      exact hd x hx (List.mem_toFinset.mp hx2)
    exact List.pairwise_map.mpr hpair2
  · intro S
    constructor
    · intro hS
      obtain ⟨G, hGf, rfl⟩ := List.mem_map.mp hS
      obtain ⟨hGmem, hGlen⟩ := List.mem_filter.mp hGf
      obtain ⟨hGnodup, s, hsG, hsval, hsne, hGiff⟩ := hcomps G hGmem
      have hsub : ∀ x, Reaches g s x → x ∈ G.toFinset :=
        fun x hx => List.mem_toFinset.mpr ((hGiff x).mpr hx)
      have hvalmem : ∀ x ∈ G.toFinset, isValidPos x.1 x.2 = true := by
        intro x hx
        exact reaches_valid hsval ((hGiff x).mp (List.mem_toFinset.mp hx))
      refine ⟨⟨s, List.mem_toFinset.mpr hsG⟩, hvalmem, ?_, ?_, ?_, ?_⟩
      · intro x hx
        have hcol := reaches_color ((hGiff x).mp (List.mem_toFinset.mp hx))
        rw [hcol]
        exact hsne
      · intro x hx y hy
        have hxs := (hGiff x).mp (List.mem_toFinset.mp hx)
        have hys := (hGiff y).mp (List.mem_toFinset.mp hy)
        have hwx := reaches_within hsub hxs
        have hwy := reaches_within hsub hys
        exact Relation.ReflTransGen.trans
          (within_symm hvalmem (List.mem_toFinset.mpr hsG) hwx) hwy
      · intro x hx y hyn hycol
        have hxs := (hGiff x).mp (List.mem_toFinset.mp hx)
        exact List.mem_toFinset.mpr ((hGiff y).mpr
          (Relation.ReflTransGen.tail hxs ⟨hyn, hycol⟩))
      · rw [List.toFinset_card_of_nodup hGnodup]
        exact of_decide_eq_true hGlen
    · intro hS
      obtain ⟨p, hpS⟩ := hS.1
      have hpval := hS.2.1 p hpS
      have hpne := hS.2.2.1 p hpS
      have hpcov := hcov p ((mem_cellList p).mpr hpval)
      rcases hpcov with h | h
      · exact absurd h hpne
      · obtain ⟨G, hGmem, hpG⟩ := (hvg p).mp h
        obtain ⟨hGnodup, s, hsG, hsval, hsne, hGiff⟩ := hcomps G hGmem
        have hsp : Reaches g s p := (hGiff p).mp hpG
        have hSeq : S = G.toFinset := by
          ext x
          rw [List.mem_toFinset, hGiff x, eligibleGroup_mem_iff hS hpS x,
            ← component_eq hsval hsp x]
        have hGlen : 6 ≤ G.length := by
          have hcard := hS.2.2.2.2.2
          rw [hSeq, List.toFinset_card_of_nodup hGnodup] at hcard
          exact hcard
        rw [hSeq]
        exact List.mem_map.mpr ⟨G, List.mem_filter.mpr ⟨hGmem, by simpa using hGlen⟩, rfl⟩
  · show (cellList.foldl matchCell ⟨g, 0, ∅⟩).totalPoints = _
    rw [hpts, List.map_map]
    apply congrArg List.sum
    apply List.map_congr_left
    intro G hGf
    obtain ⟨hGmem, _⟩ := List.mem_filter.mp hGf
    obtain ⟨hGnodup, _⟩ := hcomps G hGmem
    simp only [Function.comp]
    rw [List.toFinset_card_of_nodup hGnodup]
  · intro S q hSgs hqS
    obtain ⟨G, hGf, rfl⟩ := List.mem_map.mp hSgs
    show (cellList.foldl matchCell ⟨g, 0, ∅⟩).nextGrid q = EMPTY
    rw [hgrid q, if_pos ?_]
    exact List.mem_flatten.mpr ⟨G, hGf, List.mem_toFinset.mp hqS⟩
  · intro q hq
    show (cellList.foldl matchCell ⟨g, 0, ∅⟩).nextGrid q = g q
    rw [hgrid q, if_neg ?_]
    intro hqbig
    obtain ⟨G, hGf, hqG⟩ := List.mem_flatten.mp hqbig
    exact hq G.toFinset (List.mem_map.mpr ⟨G, hGf, rfl⟩) (List.mem_toFinset.mpr hqG)

-- ### Claim C1

/-- C1: match detection classifies each group by the strict priority chain
hexagon > pyramid > straight > plain and awards only the single
highest-priority bonus; in particular a group satisfying both the hexagon and
the straight condition gets the 1000 hexagon bonus, not the 500 straight
bonus. -/
theorem claim1_shape_priority :
    ∀ (grid : Grid) (s : Finset Pos),
      (hasHexagonInGroup s grid = true → groupShapeBonus grid s = 1000) ∧
      (hasHexagonInGroup s grid = false → hasPyramidInGroup s = true →
        groupShapeBonus grid s = 800) ∧
      (hasHexagonInGroup s grid = false → hasPyramidInGroup s = false →
        hasStraightInGroup s = true → groupShapeBonus grid s = 500) ∧
      (hasHexagonInGroup s grid = false → hasPyramidInGroup s = false →
        hasStraightInGroup s = false → groupShapeBonus grid s = 0) ∧
      (hasHexagonInGroup s grid = true → hasStraightInGroup s = true →
        groupShapeBonus grid s = 1000 ∧ groupShapeBonus grid s ≠ 500) := by
  intro grid s
  refine ⟨?_, ?_, ?_, ?_, ?_⟩
  · intro h1
    simp [groupShapeBonus, h1]
  · intro h1 h2
    simp [groupShapeBonus, h1, h2]
  · intro h1 h2 h3
    simp [groupShapeBonus, h1, h2, h3]
  · intro h1 h2 h3
    simp [groupShapeBonus, h1, h2, h3]
  · intro h1 _
    simp [groupShapeBonus, h1]

/-- Witness for C1: a concrete group containing both a hexagon ring and a
horizontal straight of 6 scores the hexagon bonus, not the straight bonus. -/
theorem claim1_shape_priority_witness :
    hasHexagonInGroup hexStraightSet emptyGrid = true ∧
    hasStraightInGroup hexStraightSet = true ∧
    groupShapeBonus emptyGrid hexStraightSet = 1000 ∧
    groupShapeBonus emptyGrid hexStraightSet ≠ 500 :=
  ⟨by decide, by decide,
    (claim1_shape_priority emptyGrid hexStraightSet).2.2.2.2 (by decide) (by decide)⟩

-- ### Claim C3

/-- C3: the total points of one detection pass are the sum, over all eligible
groups (the duplicate-free list gs of exactly the eligible groups), of
size * 100 + (size - 6) * 50 base points (truncated subtraction, which equals
max(0, size - 6) * 50) plus the group's priority shape bonus. -/
theorem claim3_total_points (g : Grid) :
    ∃ gs : List (Finset Pos),
      gs.Nodup ∧ (∀ S, S ∈ gs ↔ EligibleGroup g S) ∧
      (checkMatches g).2 =
        (gs.map fun S => S.card * 100 + (S.card - 6) * 50 + groupShapeBonus g S).sum := by
  obtain ⟨gs, h1, h2, h3, _, _⟩ := checkMatches_char g
  exact ⟨gs, h1, h2, h3⟩

-- ### Claim C5

/-- C5: match detection only ever blanks cells (never recolors), a cell that
is blanked belonged to an eligible (connected, same-colored, size at least 6)
group, and a cell all of whose maximal groups are smaller than 6 keeps its
color. -/
theorem claim5_small_groups_kept (g : Grid) (p : Pos) :
    ((checkMatches g).1 p = EMPTY ∨ (checkMatches g).1 p = g p) ∧
    ((checkMatches g).1 p = EMPTY → g p ≠ EMPTY →
      ∃ S, EligibleGroup g S ∧ p ∈ S ∧ 6 ≤ S.card) ∧
    ((∀ S, EligibleGroup g S → p ∈ S → S.card < 6) → (checkMatches g).1 p = g p) := by
  obtain ⟨gs, hnodup, hiff, hpts, hclear, hkeep⟩ := checkMatches_char g
  by_cases hp : ∃ S, S ∈ gs ∧ p ∈ S
  · obtain ⟨S, hSgs, hpS⟩ := hp
    have hel := (hiff S).mp hSgs
    have hcl := hclear S p hSgs hpS
    refine ⟨Or.inl hcl, fun _ _ => ⟨S, hel, hpS, hel.2.2.2.2.2⟩, ?_⟩
    intro hsmall
    exact absurd (hsmall S hel hpS) (by
      have h6 := hel.2.2.2.2.2
      omega)
  · push_neg at hp
    have hk := hkeep p hp
    refine ⟨Or.inr hk, ?_, fun _ => hk⟩
    intro hcl hne
    rw [hk] at hcl
    exact absurd hcl hne

/-- Witness for C5: on a board holding one single ball, every maximal group
is small, and the detection pass leaves the ball in place. -/
theorem claim5_small_groups_kept_witness :
    (∀ S, EligibleGroup oneBallGrid S → ((10, 4) : Pos) ∈ S → S.card < 6) ∧
    (checkMatches oneBallGrid).1 (10, 4) = oneBallGrid (10, 4) := by
  have hyp : ∀ S, EligibleGroup oneBallGrid S → ((10, 4) : Pos) ∈ S → S.card < 6 := by
    intro S hS _
    have hsub : S ⊆ {((10, 4) : Pos)} := by
      intro x hx
      have hne := hS.2.2.1 x hx
      rw [Finset.mem_singleton]
      by_contra hxne
      apply hne
      simp [oneBallGrid, hxne]
    have hcard := Finset.card_le_card hsub
    rw [Finset.card_singleton] at hcard
    omega
  exact ⟨hyp, (claim5_small_groups_kept oneBallGrid (10, 4)).2.2 hyp⟩

-- ### Claim C2 (corrected)

/-- Counterexample to C2 as stated: on `ringGrid` a hexagon ring of color 0
is detected around (2, 4) and cleared, the center (2, 4) is non-empty
(color 1), yet the cleared set does not include the center: it keeps its
color. -/
theorem claim2_center_counterexample :
    (∀ n ∈ getNeighbors 2 4, ringGrid n = 0) ∧
    (getNeighbors 2 4).length = 6 ∧
    hasHexagonInGroup ((getNeighbors 2 4).toFinset) ringGrid = true ∧
    (checkMatches ringGrid).1 (1, 3) = EMPTY ∧
    ringGrid (2, 4) ≠ EMPTY ∧
    (checkMatches ringGrid).1 (2, 4) = ringGrid (2, 4) ∧
    (checkMatches ringGrid).1 (2, 4) ≠ EMPTY := by
  refine ⟨by decide, by decide, by decide, by decide, by decide, ?_, by decide⟩
  decide

/-- C2 amended: the hexagon ring's center is cleared whenever it is non-empty
of the ring's own color (it is then a member of the cleared group); an empty
or differently-colored center is not cleared on account of the ring — every
cell the pass changes is blanked and belongs to some eligible group. -/
theorem claim2_center_amended :
    ∀ (g : Grid) (ctr : Pos), isValidPos ctr.1 ctr.2 = true →
      (∀ n, n ∈ getNeighbors ctr.1 ctr.2 → (checkMatches g).1 n ≠ g n →
        g ctr = g n → (checkMatches g).1 ctr = EMPTY) ∧
      (∀ q, (checkMatches g).1 q ≠ g q →
        (checkMatches g).1 q = EMPTY ∧ ∃ S, EligibleGroup g S ∧ q ∈ S) := by
  intro g ctr hval
  obtain ⟨gs, hnodup, hiff, hpts, hclear, hkeep⟩ := checkMatches_char g
  have hchanged : ∀ q, (checkMatches g).1 q ≠ g q →
      (checkMatches g).1 q = EMPTY ∧ ∃ S, S ∈ gs ∧ q ∈ S := by
    intro q hq
    by_cases h : ∃ S, S ∈ gs ∧ q ∈ S
    · obtain ⟨S, h1, h2⟩ := h
      exact ⟨hclear S q h1 h2, S, h1, h2⟩
    · push_neg at h
      exact absurd (hkeep q h) hq
  constructor
  · intro n hn hnchanged hcol
    obtain ⟨_, S, hSgs, hnS⟩ := hchanged n hnchanged
    have hel := (hiff S).mp hSgs
    have hctrS : ctr ∈ S := hel.2.2.2.2.1 n hnS ctr (getNeighbors_symm hval hn) hcol
    exact hclear S ctr hSgs hctrS
  · intro q hq
    obtain ⟨hcl, S, hSgs, hqS⟩ := hchanged q hq
    exact ⟨hcl, S, (hiff S).mp hSgs, hqS⟩

/-- Witness for the amended C2: with the center (2, 4) holding the ring's own
color, the cleared ring pulls the center into the cleared set. -/
theorem claim2_center_amended_witness :
    isValidPos 2 4 = true ∧
    ((1, 3) : Pos) ∈ getNeighbors 2 4 ∧
    (checkMatches ringGrid7).1 (1, 3) ≠ ringGrid7 (1, 3) ∧
    ringGrid7 (2, 4) = ringGrid7 (1, 3) ∧
    (checkMatches ringGrid7).1 (2, 4) = EMPTY := by
  refine ⟨by decide, by decide, by decide, by decide, ?_⟩
  exact (claim2_center_amended ringGrid7 (2, 4) (by decide)).1 (1, 3) (by decide)
    (by decide) (by decide)

-- ### Physics lemmas

lemma getBottomNeighbors_fst_row (r c : Int) :
    ((getBottomNeighbors r c).1).1 = r + 1 ∧ ((getBottomNeighbors r c).2).1 = r + 1 := by
  cases h : isOddRow r <;> simp [getBottomNeighbors, h]

lemma mem_physicsScanList (p : Pos) :
    p ∈ physicsScanList ↔
      isValidPos p.1 p.2 = true ∧ p.1 < TOTAL_ROWS - 1 := by
  have hT2 : TOTAL_ROWS.toNat - 1 = 19 := by decide
  have hC2 : COLS.toNat = 9 := by decide
  rw [isValidPos_iff]
  constructor
  · intro h
    simp only [physicsScanList, List.mem_flatMap, List.mem_map, List.mem_reverse,
      List.mem_range] at h
    obtain ⟨r, hr, c, hc, hpc⟩ := h
    rw [hT2] at hr
    rw [hC2] at hc
    subst hpc
    simp only [TOTAL_ROWS, VISIBLE_ROWS, HIDDEN_ROWS, COLS]
    omega
  · intro h
    obtain ⟨⟨h1, h2, h3, h4⟩, h5⟩ := h
    have hT : TOTAL_ROWS = 20 := by decide
    have hC : COLS = 9 := by decide
    rw [hT] at h5
    rw [hC] at h4
    have hx1 : ((p.1.toNat : Int)) = p.1 := by omega
    have hx2 : ((p.2.toNat : Int)) = p.2 := by omega
    simp only [physicsScanList]
    refine List.mem_flatMap.mpr ⟨p.1.toNat, ?_, ?_⟩
    · rw [List.mem_reverse, List.mem_range, hT2]
      omega
    · refine List.mem_map.mpr ⟨p.2.toNat, ?_, ?_⟩
      · rw [List.mem_range, hC2]
        omega
      · rw [hx1, hx2]

lemma physicsCell_cases (rng : Nat → Bool) (st : PhysState) (p : Pos) :
    physicsCell rng st p = st ∨
    (st.grid p ≠ EMPTY ∧
      ∃ t, (t = (getBottomNeighbors p.1 p.2).1 ∨ t = (getBottomNeighbors p.1 p.2).2) ∧
        isValidPos t.1 t.2 = true ∧ st.grid t = EMPTY ∧
        (physicsCell rng st p).grid = setCell (setCell st.grid t (st.grid p)) p EMPTY ∧
        (physicsCell rng st p).moved = true) := by
  by_cases hc : st.grid p = EMPTY
  · left
    simp [physicsCell, hc]
  · by_cases hA : (isValidPos (getBottomNeighbors p.1 p.2).1.1 (getBottomNeighbors p.1 p.2).1.2 &&
        decide (st.grid (getBottomNeighbors p.1 p.2).1 = EMPTY)) = true
    · obtain ⟨hA1, hA2⟩ := Bool.and_eq_true _ _ |>.mp hA
      have hA2' := of_decide_eq_true hA2
      by_cases hB : (isValidPos (getBottomNeighbors p.1 p.2).2.1 (getBottomNeighbors p.1 p.2).2.2 &&
          decide (st.grid (getBottomNeighbors p.1 p.2).2 = EMPTY)) = true
      · obtain ⟨hB1, hB2⟩ := Bool.and_eq_true _ _ |>.mp hB
        have hB2' := of_decide_eq_true hB2
        by_cases hr : rng st.k = true
        · right
          refine ⟨hc, (getBottomNeighbors p.1 p.2).1, Or.inl rfl, hA1, hA2', ?_, ?_⟩
          · simp [physicsCell, hc, hA, hB, hr]
          · simp [physicsCell, hc, hA, hB, hr]
        · right
          rw [Bool.not_eq_true] at hr
          refine ⟨hc, (getBottomNeighbors p.1 p.2).2, Or.inr rfl, hB1, hB2', ?_, ?_⟩
          · simp [physicsCell, hc, hA, hB, hr]
          · simp [physicsCell, hc, hA, hB, hr]
      · right
        refine ⟨hc, (getBottomNeighbors p.1 p.2).1, Or.inl rfl, hA1, hA2', ?_, ?_⟩
        · simp [physicsCell, hc, hA, hB]
        · simp [physicsCell, hc, hA, hB]
    · by_cases hB : (isValidPos (getBottomNeighbors p.1 p.2).2.1 (getBottomNeighbors p.1 p.2).2.2 &&
          decide (st.grid (getBottomNeighbors p.1 p.2).2 = EMPTY)) = true
      · obtain ⟨hB1, hB2⟩ := Bool.and_eq_true _ _ |>.mp hB
        have hB2' := of_decide_eq_true hB2
        right
        refine ⟨hc, (getBottomNeighbors p.1 p.2).2, Or.inr rfl, hB1, hB2', ?_, ?_⟩
        · simp [physicsCell, hc, hA, hB]
        · simp [physicsCell, hc, hA, hB]
      · left
        simp [physicsCell, hc, hA, hB]

lemma physicsCell_blocked (rng : Nat → Bool) (st : PhysState) (p : Pos)
    (hdl : ¬(isValidPos (getBottomNeighbors p.1 p.2).1.1 (getBottomNeighbors p.1 p.2).1.2 = true ∧
      st.grid (getBottomNeighbors p.1 p.2).1 = EMPTY))
    (hdr : ¬(isValidPos (getBottomNeighbors p.1 p.2).2.1 (getBottomNeighbors p.1 p.2).2.2 = true ∧
      st.grid (getBottomNeighbors p.1 p.2).2 = EMPTY)) :
    physicsCell rng st p = st := by
  by_cases hc : st.grid p = EMPTY
  · simp [physicsCell, hc]
  · have hA : (isValidPos (getBottomNeighbors p.1 p.2).1.1 (getBottomNeighbors p.1 p.2).1.2 &&
        decide (st.grid (getBottomNeighbors p.1 p.2).1 = EMPTY)) = false := by
      rw [Bool.and_eq_false_iff]
      by_cases h1 : isValidPos (getBottomNeighbors p.1 p.2).1.1 (getBottomNeighbors p.1 p.2).1.2 = true
      · right
        rw [decide_eq_false_iff_not]
        intro h2
        exact hdl ⟨h1, h2⟩
      · left
        rwa [Bool.not_eq_true] at h1
    have hB : (isValidPos (getBottomNeighbors p.1 p.2).2.1 (getBottomNeighbors p.1 p.2).2.2 &&
        decide (st.grid (getBottomNeighbors p.1 p.2).2 = EMPTY)) = false := by
      rw [Bool.and_eq_false_iff]
      by_cases h1 : isValidPos (getBottomNeighbors p.1 p.2).2.1 (getBottomNeighbors p.1 p.2).2.2 = true
      · right
        rw [decide_eq_false_iff_not]
        intro h2
        exact hdr ⟨h1, h2⟩
      · left
        rwa [Bool.not_eq_true] at h1
    simp [physicsCell, hc, hA, hB]

lemma physicsCell_moves (rng : Nat → Bool) (st : PhysState) (p : Pos)
    (hc : st.grid p ≠ EMPTY)
    (hfree : (isValidPos (getBottomNeighbors p.1 p.2).1.1 (getBottomNeighbors p.1 p.2).1.2 = true ∧
        st.grid (getBottomNeighbors p.1 p.2).1 = EMPTY) ∨
      (isValidPos (getBottomNeighbors p.1 p.2).2.1 (getBottomNeighbors p.1 p.2).2.2 = true ∧
        st.grid (getBottomNeighbors p.1 p.2).2 = EMPTY)) :
    (physicsCell rng st p).moved = true := by
  rcases hfree with ⟨h1, h2⟩ | ⟨h1, h2⟩
  · have hA : (isValidPos (getBottomNeighbors p.1 p.2).1.1 (getBottomNeighbors p.1 p.2).1.2 &&
        decide (st.grid (getBottomNeighbors p.1 p.2).1 = EMPTY)) = true := by
      rw [Bool.and_eq_true]
      exact ⟨h1, decide_eq_true h2⟩
    by_cases hB : (isValidPos (getBottomNeighbors p.1 p.2).2.1 (getBottomNeighbors p.1 p.2).2.2 &&
        decide (st.grid (getBottomNeighbors p.1 p.2).2 = EMPTY)) = true
    · by_cases hr : rng st.k = true
      · simp [physicsCell, hc, hA, hB, hr]
      · rw [Bool.not_eq_true] at hr
        simp [physicsCell, hc, hA, hB, hr]
    · simp [physicsCell, hc, hA, hB]
  · have hB : (isValidPos (getBottomNeighbors p.1 p.2).2.1 (getBottomNeighbors p.1 p.2).2.2 &&
        decide (st.grid (getBottomNeighbors p.1 p.2).2 = EMPTY)) = true := by
      rw [Bool.and_eq_true]
      exact ⟨h1, decide_eq_true h2⟩
    by_cases hA : (isValidPos (getBottomNeighbors p.1 p.2).1.1 (getBottomNeighbors p.1 p.2).1.2 &&
        decide (st.grid (getBottomNeighbors p.1 p.2).1 = EMPTY)) = true
    · by_cases hr : rng st.k = true
      · simp [physicsCell, hc, hA, hB, hr]
      · rw [Bool.not_eq_true] at hr
        simp [physicsCell, hc, hA, hB, hr]
    · simp [physicsCell, hc, hA, hB]

lemma physicsCell_moved_mono (rng : Nat → Bool) (st : PhysState) (p : Pos)
    (h : st.moved = true) : (physicsCell rng st p).moved = true := by
  rcases physicsCell_cases rng st p with hcase | hcase
  · rw [hcase]
    exact h
  · obtain ⟨_, t, _, _, _, _, hmv⟩ := hcase
    exact hmv

lemma physics_foldl_moved_mono (rng : Nat → Bool) :
    ∀ (L : List Pos) (st : PhysState), st.moved = true →
      (L.foldl (physicsCell rng) st).moved = true := by
  intro L
  induction L with
  | nil =>
      intro st h
      exact h
  | cons a L ih =>
      intro st h
      rw [List.foldl_cons]
      exact ih _ (physicsCell_moved_mono rng st a h)

lemma physics_foldl_unmoved (rng : Nat → Bool) :
    ∀ (L : List Pos) (st : PhysState),
      (L.foldl (physicsCell rng) st).moved = false →
      L.foldl (physicsCell rng) st = st ∧
      (∀ p ∈ L, st.grid p ≠ EMPTY →
        ¬(isValidPos (getBottomNeighbors p.1 p.2).1.1 (getBottomNeighbors p.1 p.2).1.2 = true ∧
            st.grid (getBottomNeighbors p.1 p.2).1 = EMPTY) ∧
        ¬(isValidPos (getBottomNeighbors p.1 p.2).2.1 (getBottomNeighbors p.1 p.2).2.2 = true ∧
            st.grid (getBottomNeighbors p.1 p.2).2 = EMPTY)) := by
  intro L
  induction L with
  | nil =>
      intro st _
      exact ⟨rfl, fun p hp => absurd hp (List.not_mem_nil p)⟩
  | cons a L ih =>
      intro st hmoved
      rw [List.foldl_cons] at hmoved ⊢
      have hstep : physicsCell rng st a = st := by
        rcases physicsCell_cases rng st a with hcase | hcase
        · exact hcase
        · exfalso
          obtain ⟨_, t, _, _, _, _, hmv⟩ := hcase
          have := physics_foldl_moved_mono rng L _ hmv
          rw [this] at hmoved
          exact Bool.true_eq_false.mp hmoved
      rw [hstep] at hmoved ⊢
      obtain ⟨hfix, hblocked⟩ := ih st hmoved
      refine ⟨hfix, ?_⟩
      intro p hp hpne
      rcases List.mem_cons.mp hp with hpa | hpL
      · subst hpa
        constructor
        · intro hfree
          have := physicsCell_moves rng st p hpne (Or.inl hfree)
          rw [hstep] at this
          have hmv := physics_foldl_moved_mono rng L st this
          rw [hmv] at hmoved
          exact Bool.true_eq_false.mp hmoved
        · intro hfree
          have := physicsCell_moves rng st p hpne (Or.inr hfree)
          rw [hstep] at this
          have hmv := physics_foldl_moved_mono rng L st this
          rw [hmv] at hmoved
          exact Bool.true_eq_false.mp hmoved
      · exact hblocked p hpL hpne

lemma physicsCell_tiebreak (rng : Nat → Bool) (st : PhysState) (p : Pos)
    (hc : st.grid p ≠ EMPTY)
    (h1 : isValidPos (getBottomNeighbors p.1 p.2).1.1 (getBottomNeighbors p.1 p.2).1.2 = true)
    (h2 : st.grid (getBottomNeighbors p.1 p.2).1 = EMPTY)
    (h3 : isValidPos (getBottomNeighbors p.1 p.2).2.1 (getBottomNeighbors p.1 p.2).2.2 = true)
    (h4 : st.grid (getBottomNeighbors p.1 p.2).2 = EMPTY) :
    (physicsCell rng st p).grid =
      setCell (setCell st.grid
        (if rng st.k then (getBottomNeighbors p.1 p.2).1 else (getBottomNeighbors p.1 p.2).2)
        (st.grid p)) p EMPTY := by
  have hA : (isValidPos (getBottomNeighbors p.1 p.2).1.1 (getBottomNeighbors p.1 p.2).1.2 &&
      decide (st.grid (getBottomNeighbors p.1 p.2).1 = EMPTY)) = true := by
    rw [Bool.and_eq_true]
    exact ⟨h1, decide_eq_true h2⟩
  have hB : (isValidPos (getBottomNeighbors p.1 p.2).2.1 (getBottomNeighbors p.1 p.2).2.2 &&
      decide (st.grid (getBottomNeighbors p.1 p.2).2 = EMPTY)) = true := by
    rw [Bool.and_eq_true]
    exact ⟨h3, decide_eq_true h4⟩
  by_cases hr : rng st.k = true
  · simp [physicsCell, hc, hA, hB, hr]
  · rw [Bool.not_eq_true] at hr
    simp [physicsCell, hc, hA, hB, hr]

lemma countP_setCell : ∀ (l : List Pos), l.Nodup → ∀ (g : Grid) (p : Pos) (a : Int),
    p ∈ l → ∀ (pred : Int → Bool),
    l.countP (fun q => pred (setCell g p a q)) + (if pred (g p) then 1 else 0) =
      l.countP (fun q => pred (g q)) + (if pred a then 1 else 0) := by
  intro l
  induction l with
  | nil =>
      intro _ g p a hp
      exact absurd hp (List.not_mem_nil p)
  | cons x l ih =>
      intro hnd g p a hp pred
      obtain ⟨hxnotin, hndl⟩ := List.nodup_cons.mp hnd
      rw [List.countP_cons, List.countP_cons]
      rcases List.mem_cons.mp hp with hpx | hpl
      · subst hpx
        have hrest : l.countP (fun q => pred (setCell g p a q)) =
            l.countP (fun q => pred (g q)) := by
          apply List.countP_congr
          intro q hq
          have hqp : q ≠ p := fun h => hxnotin (h ▸ hq)
          simp [setCell, hqp]
        have hpa : setCell g p a p = a := by simp [setCell]
        rw [hrest, hpa]
        omega
      · have hxp : x ≠ p := fun h => hxnotin (h ▸ hpl)
        have hhead : setCell g p a x = g x := by simp [setCell, hxp]
        have := ih hndl g p a hpl pred
        rw [hhead]
        omega

lemma physicsCell_countP (rng : Nat → Bool) (st : PhysState) (p : Pos) (hp : p ∈ cellList)
    (pred : Int → Bool) (hpredE : pred EMPTY = false) :
    cellList.countP (fun q => pred ((physicsCell rng st p).grid q)) =
      cellList.countP (fun q => pred (st.grid q)) := by
  rcases physicsCell_cases rng st p with h | h
  · rw [h]
  · obtain ⟨hne, t, ht, htval, htE, hgrid, _⟩ := h
    have htrow := getBottomNeighbors_fst_row p.1 p.2
    have htp : t ≠ p := by
      intro hteq
      rcases ht with h1 | h1
      · rw [h1] at hteq
        have := congrArg Prod.fst hteq
        rw [htrow.1] at this
        omega
      · rw [h1] at hteq
        have := congrArg Prod.fst hteq
        rw [htrow.2] at this
        omega
    have htcell : t ∈ cellList := (mem_cellList t).mpr htval
    rw [hgrid]
    have e1 := countP_setCell cellList cellList_nodup st.grid t (st.grid p) htcell pred
    have e2 := countP_setCell cellList cellList_nodup (setCell st.grid t (st.grid p)) p
      EMPTY hp pred
    have hgp : setCell st.grid t (st.grid p) p = st.grid p := by
      simp [setCell, Ne.symm htp]
    rw [hgp] at e2
    rw [htE, hpredE] at e1
    rw [hpredE] at e2
    omega

lemma physics_foldl_countP (rng : Nat → Bool) :
    ∀ (L : List Pos) (st : PhysState), (∀ p ∈ L, p ∈ cellList) →
      ∀ (pred : Int → Bool), pred EMPTY = false →
        cellList.countP (fun q => pred ((L.foldl (physicsCell rng) st).grid q)) =
          cellList.countP (fun q => pred (st.grid q)) := by
  intro L
  induction L with
  | nil =>
      intro st _ pred _
      rfl
  | cons a L ih =>
      intro st hmem pred hE
      rw [List.foldl_cons]
      rw [ih (physicsCell rng st a) (fun p hp => hmem p (List.mem_cons_of_mem a hp)) pred hE]
      exact physicsCell_countP rng st a (hmem a (List.mem_cons_self a L)) pred hE

-- ### Claim C4

/-- C4: one gravity step scans the cells of rows `TOTAL_ROWS - 2` down to 0;
each scanned non-empty cell either stays put or moves to one of its two
parity-dependent bottom neighbours, and only when that neighbour is in bounds
and empty in the working grid at that moment; when neither neighbour is free
the ball stays; when both are free the random oracle picks down-left or
down-right; and the step reports no movement only when the grid is returned
unchanged and every scanned non-empty cell has no free down-neighbour. -/
theorem claim4_gravity_step :
    ∀ (rng : Nat → Bool) (g : Grid),
      (∀ (st : PhysState) (p : Pos),
        physicsCell rng st p = st ∨
        (st.grid p ≠ EMPTY ∧
          ∃ t, (t = (getBottomNeighbors p.1 p.2).1 ∨ t = (getBottomNeighbors p.1 p.2).2) ∧
            isValidPos t.1 t.2 = true ∧ st.grid t = EMPTY ∧
            (physicsCell rng st p).grid = setCell (setCell st.grid t (st.grid p)) p EMPTY ∧
            (physicsCell rng st p).moved = true)) ∧
      (∀ (st : PhysState) (p : Pos),
        ¬(isValidPos (getBottomNeighbors p.1 p.2).1.1 (getBottomNeighbors p.1 p.2).1.2 = true ∧
            st.grid (getBottomNeighbors p.1 p.2).1 = EMPTY) →
        ¬(isValidPos (getBottomNeighbors p.1 p.2).2.1 (getBottomNeighbors p.1 p.2).2.2 = true ∧
            st.grid (getBottomNeighbors p.1 p.2).2 = EMPTY) →
        physicsCell rng st p = st) ∧
      (∀ (st : PhysState) (p : Pos), st.grid p ≠ EMPTY →
        isValidPos (getBottomNeighbors p.1 p.2).1.1 (getBottomNeighbors p.1 p.2).1.2 = true →
        st.grid (getBottomNeighbors p.1 p.2).1 = EMPTY →
        isValidPos (getBottomNeighbors p.1 p.2).2.1 (getBottomNeighbors p.1 p.2).2.2 = true →
        st.grid (getBottomNeighbors p.1 p.2).2 = EMPTY →
        (physicsCell rng st p).grid =
          setCell (setCell st.grid
            (if rng st.k then (getBottomNeighbors p.1 p.2).1
             else (getBottomNeighbors p.1 p.2).2) (st.grid p)) p EMPTY) ∧
      (∀ p : Pos, p ∈ physicsScanList ↔
        (isValidPos p.1 p.2 = true ∧ p.1 < TOTAL_ROWS - 1)) ∧
      ((runPhysicsStep rng g).2 = false →
        (∀ q, (runPhysicsStep rng g).1 q = g q) ∧
        (∀ p ∈ physicsScanList, g p ≠ EMPTY →
          ¬(isValidPos (getBottomNeighbors p.1 p.2).1.1 (getBottomNeighbors p.1 p.2).1.2 = true ∧
              g (getBottomNeighbors p.1 p.2).1 = EMPTY) ∧
          ¬(isValidPos (getBottomNeighbors p.1 p.2).2.1 (getBottomNeighbors p.1 p.2).2.2 = true ∧
              g (getBottomNeighbors p.1 p.2).2 = EMPTY))) := by
  intro rng g
  refine ⟨physicsCell_cases rng, physicsCell_blocked rng, physicsCell_tiebreak rng,
    mem_physicsScanList, ?_⟩
  intro hmf
  obtain ⟨hfix, hblocked⟩ := physics_foldl_unmoved rng physicsScanList ⟨g, false, 0⟩ hmf
  constructor
  · intro q
    show (physicsScanList.foldl (physicsCell rng) ⟨g, false, 0⟩).grid q = g q
    rw [hfix]
  · intro p hp hpne
    exact hblocked p hp hpne

/-- Witness for C4 at a board with a single ball resting on the bottom row:
the step reports no movement, leaves the grid unchanged, and the blocked and
tie-break cases of `physicsCell` are exercised at concrete states. -/
theorem claim4_gravity_step_witness :
    (runPhysicsStep (fun _ => true) bottomBallGrid).2 = false ∧
    (runPhysicsStep (fun _ => true) bottomBallGrid).1 (19, 0) = bottomBallGrid (19, 0) ∧
    (¬(isValidPos 20 0 = true ∧ bottomBallGrid (20, 0) = EMPTY)) ∧
    physicsCell (fun _ => true) blockedPhysState (19, 0) = blockedPhysState ∧
    (oneBallGrid (10, 4) ≠ EMPTY ∧ isValidPos 11 4 = true ∧ oneBallGrid (11, 4) = EMPTY ∧
      isValidPos 11 5 = true ∧ oneBallGrid (11, 5) = EMPTY) ∧
    (physicsCell (fun _ => true) ⟨oneBallGrid, false, 0⟩ (10, 4)).grid =
      setCell (setCell oneBallGrid
        (if (fun _ : Nat => true) 0 then (getBottomNeighbors 10 4).1
         else (getBottomNeighbors 10 4).2) (oneBallGrid (10, 4))) (10, 4) EMPTY := by
  refine ⟨by decide, ?_, by decide, ?_, ⟨by decide, by decide, by decide, by decide, by decide⟩, ?_⟩
  · exact ((claim4_gravity_step (fun _ => true) bottomBallGrid).2.2.2.2 (by decide)).1 (19, 0)
  · exact (claim4_gravity_step (fun _ => true) bottomBallGrid).2.1 blockedPhysState (19, 0)
      (by decide) (by decide)
  · exact (claim4_gravity_step (fun _ => true) oneBallGrid).2.2.1 ⟨oneBallGrid, false, 0⟩
      (10, 4) (by decide) (by decide) (by decide) (by decide) (by decide)

-- ### Claim C10

/-- C10: one gravity step preserves the multiset of ball colors on the board:
no ball is created, destroyed or recolored by settling. -/
theorem claim10_gravity_preserves_balls (rng : Nat → Bool) (g : Grid) :
    boardBalls ((runPhysicsStep rng g).1) = boardBalls g := by
  have hfold : ∀ pred : Int → Bool, pred EMPTY = false →
      cellList.countP (fun q => pred ((runPhysicsStep rng g).1 q)) =
        cellList.countP (fun q => pred (g q)) := by
    intro pred hE
    have hmem : ∀ p ∈ physicsScanList, p ∈ cellList := by
      intro p hp
      rw [mem_cellList]
      exact ((mem_physicsScanList p).mp hp).1
    exact physics_foldl_countP rng physicsScanList ⟨g, false, 0⟩ hmem pred hE
  rw [boardBalls, boardBalls]
  have hcount : ∀ (G : Grid) (a : Int),
      List.count a ((cellList.map G).filter fun v => decide (v ≠ EMPTY)) =
        cellList.countP fun p => (G p == a) && decide (G p ≠ EMPTY) := by
    intro G a
    rw [List.count, List.countP_filter, List.countP_map]
    rfl
  apply Multiset.ext.mpr
  intro a
  rw [Multiset.coe_count, Multiset.coe_count, hcount, hcount]
  by_cases ha : a = EMPTY
  · subst ha
    have hzero : ∀ (G : Grid),
        (cellList.countP fun p => (G p == EMPTY) && decide (G p ≠ EMPTY)) = 0 := by
      intro G
      rw [List.countP_eq_zero]
      intro p _
      by_cases h : G p = EMPTY
      · simp [h]
      · simp [h]
    rw [hzero, hzero]
  · have hsimp : ∀ (G : Grid),
        (cellList.countP fun p => (G p == a) && decide (G p ≠ EMPTY)) =
          cellList.countP fun p => (G p == a) := by
      intro G
      apply List.countP_congr
      intro p _
      by_cases h : G p = a
      · have hne : G p ≠ EMPTY := by
          rw [h]
          exact ha
        simp [h, hne, ha]
      · simp [h]
    rw [hsimp, hsimp]
    exact hfold (fun v => v == a) (by
      rw [beq_eq_false_iff_ne]
      exact fun h => ha h.symm)

-- ### Rotation of the falling piece (claim C6)

lemma ballCollides_empty (px py : ℚ) (b : BallRelative) (r c : Int)
    (hr : round (py + b.dy) = r)
    (hc : ⌊px + b.dx - (if isOddRow r then (1 : ℚ) / 2 else 0)⌋ = c)
    (h1 : r < TOTAL_ROWS) (h2 : 0 ≤ c) (h3 : c < COLS) :
    ballCollides emptyGrid px py b = false := by
  simp only [ballCollides, emptyGrid, hr, hc]
  have k1 : ¬ TOTAL_ROWS ≤ r := not_le.mpr h1
  have k2 : ¬ c < 0 := not_lt.mpr h2
  have k3 : ¬ COLS ≤ c := not_le.mpr h3
  simp [k1, k2, k3]

lemma rotatePiece_twice_CW (c0 c1 c2 : Int) :
    rotatePiece emptyGrid RotDir.CW (rotatePiece emptyGrid RotDir.CW (spawnPiece [c0, c1, c2])) =
      { x := 7 / 2, y := 2,
        balls := [⟨0, 0, c2⟩, ⟨-(1 / 2), -1, c0⟩, ⟨1 / 2, -1, c1⟩],
        rotationState := 0 } := by
  have hcoll1 : checkCollision emptyGrid (7 / 2) 2
      [⟨0, -1, c1⟩, ⟨-(1 / 2), 0, c0⟩, ⟨1 / 2, 0, c2⟩] = false := by
    simp only [checkCollision, List.any_cons, List.any_nil, Bool.or_eq_false_iff]
    refine ⟨?_, ?_, ?_, trivial⟩
    · exact ballCollides_empty _ _ _ 1 3 (by norm_num [round_eq])
        (by norm_num [isOddRow]) (by decide) (by decide) (by decide)
    · exact ballCollides_empty _ _ _ 2 3 (by norm_num [round_eq])
        (by norm_num [isOddRow]) (by decide) (by decide) (by decide)
    · exact ballCollides_empty _ _ _ 2 4 (by norm_num [round_eq])
        (by norm_num [isOddRow]) (by decide) (by decide) (by decide)
  have hcoll2 : checkCollision emptyGrid (7 / 2) 2
      [⟨0, 0, c2⟩, ⟨-(1 / 2), -1, c0⟩, ⟨1 / 2, -1, c1⟩] = false := by
    simp only [checkCollision, List.any_cons, List.any_nil, Bool.or_eq_false_iff]
    refine ⟨?_, ?_, ?_, trivial⟩
    · exact ballCollides_empty _ _ _ 2 3 (by norm_num [round_eq])
        (by norm_num [isOddRow]) (by decide) (by decide) (by decide)
    · exact ballCollides_empty _ _ _ 1 2 (by norm_num [round_eq])
        (by norm_num [isOddRow]) (by decide) (by decide) (by decide)
    · exact ballCollides_empty _ _ _ 1 3 (by norm_num [round_eq])
        (by norm_num [isOddRow]) (by decide) (by decide) (by decide)
  have e1 : rotatePiece emptyGrid RotDir.CW (spawnPiece [c0, c1, c2]) =
      { x := 7 / 2, y := 2,
        balls := [⟨0, -1, c1⟩, ⟨-(1 / 2), 0, c0⟩, ⟨1 / 2, 0, c2⟩],
        rotationState := 1 } := by
    simp [rotatePiece, spawnPiece, shape1] at hcoll1 ⊢
    simp [hcoll1]
  rw [e1]
  simp [rotatePiece, shape0] at hcoll2 ⊢
  simp [hcoll2]

/-- C6 (counterexample): on the empty board, spawning with colors `[0, 1, 2]`
and rotating clockwise twice returns to rotation state 0, but the colors sit
in slots `[2, 0, 1]` instead of their original order `[0, 1, 2]`: the color
cycle applied by `rotatePiece` does not invert after two steps. -/
theorem claim6_double_rotation_counterexample :
    (spawnPiece [0, 1, 2]).rotationState = 0 ∧
    (spawnPiece [0, 1, 2]).balls.map BallRelative.color = [0, 1, 2] ∧
    (rotatePiece emptyGrid RotDir.CW (rotatePiece emptyGrid RotDir.CW
        (spawnPiece [0, 1, 2]))).rotationState = 0 ∧
    (rotatePiece emptyGrid RotDir.CW (rotatePiece emptyGrid RotDir.CW
        (spawnPiece [0, 1, 2]))).balls.map BallRelative.color = [2, 0, 1] ∧
    ([2, 0, 1] : List Int) ≠ [0, 1, 2] := by
  refine ⟨rfl, rfl, ?_, ?_, by decide⟩
  · rw [rotatePiece_twice_CW]
  · rw [rotatePiece_twice_CW]
    rfl

/-- C6 (amended): on the empty board, two clockwise rotations from the spawn
state return to rotation state 0 with the original offset slots, but the
colors are cyclically permuted: the slot colors go from `[c0, c1, c2]` to
`[c2, c0, c1]`. -/
theorem claim6_double_rotation_amended (c0 c1 c2 : Int) :
    rotatePiece emptyGrid RotDir.CW (rotatePiece emptyGrid RotDir.CW (spawnPiece [c0, c1, c2])) =
      { x := 7 / 2, y := 2,
        balls := [⟨0, 0, c2⟩, ⟨-(1 / 2), -1, c0⟩, ⟨1 / 2, -1, c1⟩],
        rotationState := 0 } ∧
    (rotatePiece emptyGrid RotDir.CW (rotatePiece emptyGrid RotDir.CW
        (spawnPiece [c0, c1, c2]))).rotationState = (spawnPiece [c0, c1, c2]).rotationState ∧
    (rotatePiece emptyGrid RotDir.CW (rotatePiece emptyGrid RotDir.CW
        (spawnPiece [c0, c1, c2]))).balls.map (fun b => (b.dx, b.dy)) =
      (spawnPiece [c0, c1, c2]).balls.map (fun b => (b.dx, b.dy)) ∧
    (rotatePiece emptyGrid RotDir.CW (rotatePiece emptyGrid RotDir.CW
        (spawnPiece [c0, c1, c2]))).balls.map BallRelative.color = [c2, c0, c1] := by
  have h := rotatePiece_twice_CW c0 c1 c2
  refine ⟨h, ?_, ?_, ?_⟩ <;> rw [h] <;> rfl

-- ### Horizontal movement of the falling piece (claim C9)

/-- C9: a move with a zero vertical component always keeps the piece active
(never locks), leaving y, balls and rotation state unchanged; a colliding
horizontal component is cancelled, the x staying put; and a colliding
horizontal component never prevents the vertical component of the same move:
the move then behaves exactly as if dx were 0. -/
theorem claim9_horizontal_move (grid : Grid) (dx dy : ℚ) (prev : FloatingPiece) :
    (dy = 0 →
      movePiece grid dx dy prev = MoveResult.active { prev with
        x := if dx ≠ 0 ∧ checkCollision grid (prev.x + dx) prev.y prev.balls = false
             then prev.x + dx else prev.x }) ∧
    (dx ≠ 0 → checkCollision grid (prev.x + dx) prev.y prev.balls = true →
      movePiece grid dx dy prev = movePiece grid 0 dy prev) := by
  constructor
  · intro hdy
    subst hdy
    by_cases hdx : dx = 0
    · simp [movePiece, hdx]
    · by_cases hcol : checkCollision grid (prev.x + dx) prev.y prev.balls
      · simp [movePiece, hdx, hcol]
      · simp [movePiece, hdx, hcol]
  · intro hdx hcol
    simp [movePiece, hdx, hcol]

/-- Witness for C9: on the empty board, a pure horizontal move of the spawn
piece stays active, and a far-left move that collides with the wall behaves
exactly like a pure downward move. -/
theorem claim9_horizontal_move_witness :
    ((0 : ℚ) = 0 ∧
      movePiece emptyGrid 1 0 (spawnPiece [0, 1, 2]) =
        MoveResult.active { spawnPiece [0, 1, 2] with
          x := if (1 : ℚ) ≠ 0 ∧
              checkCollision emptyGrid ((spawnPiece [0, 1, 2]).x + 1)
                (spawnPiece [0, 1, 2]).y (spawnPiece [0, 1, 2]).balls = false
            then (spawnPiece [0, 1, 2]).x + 1 else (spawnPiece [0, 1, 2]).x }) ∧
    ((-4 : ℚ) ≠ 0 ∧
      checkCollision emptyGrid ((spawnPiece [0, 1, 2]).x + -4)
        (spawnPiece [0, 1, 2]).y (spawnPiece [0, 1, 2]).balls = true ∧
      movePiece emptyGrid (-4) 1 (spawnPiece [0, 1, 2]) =
        movePiece emptyGrid 0 1 (spawnPiece [0, 1, 2])) := by
  have hcol : checkCollision emptyGrid ((spawnPiece [0, 1, 2]).x + -4)
      (spawnPiece [0, 1, 2]).y (spawnPiece [0, 1, 2]).balls = true := by
    show ([(⟨0, 0, 0⟩ : BallRelative), ⟨-(1 / 2), -1, 1⟩, ⟨1 / 2, -1, 2⟩].any
      (ballCollides emptyGrid ((7 : ℚ) / 2 + -4) 2)) = true
    have h0 : ballCollides emptyGrid ((7 : ℚ) / 2 + -4) 2 ⟨0, 0, 0⟩ = true := by
      simp only [ballCollides]
      have hr : round ((2 : ℚ) + 0) = 2 := by norm_num [round_eq]
      rw [hr]
      have hc : ⌊(7 : ℚ) / 2 + -4 + 0 - (if isOddRow 2 then (1 : ℚ) / 2 else 0)⌋ = -1 := by
        norm_num [isOddRow]
      rw [hc]
      simp
    rw [List.any_cons, h0]
    rfl
  exact ⟨⟨rfl, (claim9_horizontal_move emptyGrid 1 0 (spawnPiece [0, 1, 2])).1 rfl⟩,
    ⟨by norm_num, hcol,
      (claim9_horizontal_move emptyGrid (-4) 1 (spawnPiece [0, 1, 2])).2 (by norm_num) hcol⟩⟩

-- ### The SETTLING state machine (claim C8)

lemma checkGameOver_iff (g : Grid) :
    checkGameOver g = true ↔
      ∃ r c : Int, 0 ≤ r ∧ r < HIDDEN_ROWS ∧ 0 ≤ c ∧ c < COLS ∧ g (r, c) ≠ EMPTY := by
  have h5 : HIDDEN_ROWS.toNat = 5 := by decide
  have h9 : COLS.toNat = 9 := by decide
  have h5' : HIDDEN_ROWS = 5 := by decide
  have h9' : COLS = 9 := by decide
  simp only [checkGameOver, List.any_eq_true, List.mem_range, decide_eq_true_eq]
  constructor
  · rintro ⟨r, hr, c, hc, h⟩
    rw [h5] at hr
    rw [h9] at hc
    refine ⟨(r : Int), (c : Int), Int.ofNat_nonneg r, ?_, Int.ofNat_nonneg c, ?_, h⟩
    · rw [h5']
      omega
    · rw [h9']
      omega
  · rintro ⟨r, c, hr0, hr, hc0, hc, h⟩
    rw [h5'] at hr
    rw [h9'] at hc
    refine ⟨r.toNat, ?_, c.toNat, ?_, ?_⟩
    · rw [h5]
      omega
    · rw [h9]
      omega
    · rwa [Int.toNat_of_nonneg hr0, Int.toNat_of_nonneg hc0]

/-- C8: at a settling tick whose gravity step reports no movement, the
machine branches on the detected points: positive points apply the clears and
add to the score, staying in the same phase for the chain reaction; zero
points end the loop, going to GAME_OVER exactly when the overflow test fires
and otherwise to PLAYING with a piece spawned from the stored next colors and
a fresh preview; and the overflow test holds exactly when some cell of the
top HIDDEN_ROWS rows is non-empty. -/
theorem claim8_settling_transitions (rng : Nat → Bool) (fresh : List Int) (st : GameState)
    (hmoved : (runPhysicsStep rng st.grid).2 = false) :
    (0 < (checkMatches (runPhysicsStep rng st.grid).1).2 →
      settleTick rng fresh st =
        { st with grid := (checkMatches (runPhysicsStep rng st.grid).1).1,
                  score := st.score + (checkMatches (runPhysicsStep rng st.grid).1).2 } ∧
      (settleTick rng fresh st).phase = st.phase) ∧
    ((checkMatches (runPhysicsStep rng st.grid).1).2 = 0 →
      ((settleTick rng fresh st).phase = GamePhase.GAME_OVER ↔
        checkGameOver (runPhysicsStep rng st.grid).1 = true) ∧
      (checkGameOver (runPhysicsStep rng st.grid).1 = true →
        settleTick rng fresh st =
          { st with grid := (runPhysicsStep rng st.grid).1,
                    phase := GamePhase.GAME_OVER }) ∧
      (checkGameOver (runPhysicsStep rng st.grid).1 = false →
        settleTick rng fresh st =
          { st with grid := (runPhysicsStep rng st.grid).1,
                    phase := GamePhase.PLAYING,
                    activePiece := some (spawnPiece st.nextColors),
                    nextColors := fresh })) ∧
    (checkGameOver (runPhysicsStep rng st.grid).1 = true ↔
      ∃ r c : Int, 0 ≤ r ∧ r < HIDDEN_ROWS ∧ 0 ≤ c ∧ c < COLS ∧
        (runPhysicsStep rng st.grid).1 (r, c) ≠ EMPTY) := by
  refine ⟨?_, ?_, checkGameOver_iff _⟩
  · intro hpts
    have e : settleTick rng fresh st =
        { st with grid := (checkMatches (runPhysicsStep rng st.grid).1).1,
                  score := st.score + (checkMatches (runPhysicsStep rng st.grid).1).2 } := by
      simp [settleTick, hmoved, hpts]
    exact ⟨e, by rw [e]⟩
  · intro hpts
    have hnot : ¬ 0 < (checkMatches (runPhysicsStep rng st.grid).1).2 := by omega
    by_cases hover : checkGameOver (runPhysicsStep rng st.grid).1 = true
    · have e : settleTick rng fresh st =
          { st with grid := (runPhysicsStep rng st.grid).1,
                    phase := GamePhase.GAME_OVER } := by
        simp [settleTick, hmoved, hnot, hover]
      refine ⟨?_, fun _ => e, fun hc => absurd hover (by simp [hc])⟩
      rw [e]
      simp [hover]
    · rw [Bool.not_eq_true] at hover
      have e : settleTick rng fresh st =
          { st with grid := (runPhysicsStep rng st.grid).1,
                    phase := GamePhase.PLAYING,
                    activePiece := some (spawnPiece st.nextColors),
                    nextColors := fresh } := by
        simp [settleTick, hmoved, hnot, hover]
      refine ⟨?_, fun hc => absurd hc (by simp [hover]), fun _ => e⟩
      rw [e]
      simp [hover]

/-- Witness for C8: over the empty board the gravity step reports no
movement, detection finds no points, no overflow is present, and the settle
tick spawns the stored next piece and refreshes the preview colors. -/
theorem claim8_settling_transitions_witness :
    (runPhysicsStep (fun _ => true) settleStateEmpty.grid).2 = false ∧
    (checkMatches (runPhysicsStep (fun _ => true) settleStateEmpty.grid).1).2 = 0 ∧
    checkGameOver (runPhysicsStep (fun _ => true) settleStateEmpty.grid).1 = false ∧
    settleTick (fun _ => true) [3, 4, 5] settleStateEmpty =
      { settleStateEmpty with
          grid := (runPhysicsStep (fun _ => true) settleStateEmpty.grid).1,
          phase := GamePhase.PLAYING,
          activePiece := some (spawnPiece settleStateEmpty.nextColors),
          nextColors := [3, 4, 5] } :=
  ⟨by decide, by decide, by decide,
    ((claim8_settling_transitions (fun _ => true) [3, 4, 5] settleStateEmpty
        (by decide)).2.1 (by decide)).2.2 (by decide)⟩
